import Mathlib

/-!
Verification of the qemu-eos peripheral-emulation core.

Shallow embedding of the EOS peripheral-emulation engine from
`hw/eos/eos.c`: the interrupt-delivery state machine (`eos_trigger_int`,
the per-tick scan in `eos_interrupt_timer_body`, the interrupt-reason
register of `eos_handle_intengine`), the countdown and output-compare
timer engines, the synchronous DMA copy engine (`eos_handle_dma`), and
the MMIO dispatch (`eos_find_handler` / `eos_handler` /
`eos_default_handle`).

Machine integers are modelled as `Nat` with explicit masking / `% 2^32`
exactly where the C arithmetic wraps.  Arrays indexed by small integers
are modelled as total functions `Nat → _` updated pointwise.  The
logging calls (`io_log`, `fprintf`) and the `usleep` latency hack in
`eos_trigger_int` have no effect on the machine state and are omitted.

Compile-time constants that live in the (not included) header `eos.h`
(`INT_ENTRIES`, `TIMER_INTERRUPT`, `DRYOS_TIMER_ID`,
`HPTIMER_INTERRUPT`, `COUNT(timer_enabled)`) are collected in a `Cfg`
record over which all theorems are parametric.
-/

namespace EosModel

/-- Constant `DIGIC_TIMER_STEP = 0x100` (eos.c:34). -/
def DIGIC_TIMER_STEP : Nat := 0x100

/-- Constant `DIGIC_TIMER20_MASK = 0x000FFFFF and-not (DIGIC_TIMER_STEP-1)` (eos.c:35). -/
def DIGIC_TIMER20_MASK : Nat := 0x000FFF00

/-- Constant `DIGIC_TIMER32_MASK = 0xFFFFFFFF and-not (DIGIC_TIMER_STEP-1)` (eos.c:36). -/
def DIGIC_TIMER32_MASK : Nat := 0xFFFFFF00

/-- Compile-time constants of the build that are defined in the missing
header `eos.h` (per-model catalog, out of the spec's scope); the model
is parametric in them.  `intEntries` is the size of the
`irq_enabled`/`irq_schedule` arrays, `timerInterrupt` the designated
periodic-timer interrupt id (`TIMER_INTERRUPT`), `dryosTimerId` the
system timer slot (`DRYOS_TIMER_ID`), `hptimerInterrupt` the shared
HPTimer interrupt id (`HPTIMER_INTERRUPT`), `numTimers` the number of
countdown timer slots (`COUNT(eos_state->timer_enabled)`). -/
structure Cfg where
  intEntries : Nat
  timerInterrupt : Nat
  dryosTimerId : Nat
  hptimerInterrupt : Nat
  numTimers : Nat
deriving DecidableEq

/-- One output-compare timer slot (both the `UTimers` and the
`HPTimers` families of `EOSState` use this shape). -/
structure OCTimer where
  active : Bool
  output_compare : Nat
  triggered : Bool
deriving DecidableEq

/-- The peripheral state of `struct EOSState` that the claims touch.
`intLine` is the level of the CPU interrupt line
(`cpu_interrupt`/`cpu_reset_interrupt` with `CPU_INTERRUPT_HARD`);
`intAsserts` counts the calls to `cpu_interrupt`, the observable
"assertion occurred" events. -/
structure EOSState where
  irq_enabled : Nat → Bool
  irq_schedule : Nat → Nat
  irq_id : Nat
  intLine : Bool
  intAsserts : Nat
  timer_enabled : Nat → Bool
  timer_current_value : Nat → Nat
  timer_reload_value : Nat → Nat
  digic_timer20 : Nat
  digic_timer32 : Nat
  UTimers : Nat → OCTimer
  HPTimers : Nat → OCTimer

/-- Pointwise array update. -/
def upd {α : Type} (f : Nat → α) (i : Nat) (v : α) : Nat → α :=
  fun j => if j = i then v else f j

@[simp] theorem upd_same {α : Type} (f : Nat → α) (i : Nat) (v : α) :
    upd f i v i = v := by simp [upd]

@[simp] theorem upd_other {α : Type} (f : Nat → α) (i j : Nat) (v : α)
    (h : j ≠ i) : upd f i v j = f j := by simp [upd, h]

/-- Function `eos_trigger_int(id, delay)` (eos.c:2398).  The `usleep` and the
log lines are state-irrelevant and omitted; the `assert(id)` is
reflected by the `id ≠ 0` hypotheses of the theorems that use this
function. -/
def eos_trigger_int (id delay : Nat) (s : EOSState) : EOSState :=
  if delay = 0 ∧ s.irq_enabled id ∧ s.irq_id = 0 then
    { s with irq_id := id,
             irq_enabled := upd s.irq_enabled id false,
             intLine := true,
             intAsserts := s.intAsserts + 1 }
  else
    let d := if s.irq_enabled id then max delay 1 else 1
    { s with irq_schedule := upd s.irq_schedule id d }

/-- The "it is pending, so trigger int" half of one iteration of the
pending-interrupt scan loop of `eos_interrupt_timer_body`
(eos.c:966-997): activation of a pending id when possible, with the
`TIMER_INTERRUPT` re-arm special case (eos.c:974-990). -/
def servIrqAct (cfg : Cfg) (pos : Nat) (s : EOSState) : EOSState :=
  if s.irq_schedule pos = 1 ∧ s.irq_enabled pos ∧ s.irq_id = 0 then
    let sched :=
      if pos = cfg.timerInterrupt then
        s.timer_reload_value cfg.dryosTimerId >>> 8
      else 0
    { s with irq_schedule := upd s.irq_schedule pos sched,
             irq_id := pos,
             irq_enabled := upd s.irq_enabled pos false,
             intLine := true,
             intAsserts := s.intAsserts + 1 }
  else s

/-- The "still counting down?" half of one scan iteration
(eos.c:999-1003); in the C loop it runs on the array as left by the
activation half of the same iteration. -/
def servIrqDec (pos : Nat) (s : EOSState) : EOSState :=
  if s.irq_schedule pos > 1 then
    { s with irq_schedule := upd s.irq_schedule pos (s.irq_schedule pos - 1) }
  else s

/-- One full iteration (index `pos`) of the pending-interrupt scan
loop of `eos_interrupt_timer_body` (eos.c:964-1004). -/
def servIrq (cfg : Cfg) (pos : Nat) (s : EOSState) : EOSState :=
  servIrqDec pos (servIrqAct cfg pos s)

/-- The scan loop `for(pos = INT_ENTRIES-1; pos > 0; pos--)`:
`scanAux cfg p` processes positions `p, p-1, ..., 1`. -/
def scanAux (cfg : Cfg) : Nat → EOSState → EOSState
  | 0, s => s
  | p + 1, s => scanAux cfg p (servIrq cfg (p + 1) s)

/-- The whole pending-interrupt scan of one tick. -/
def irqScanPhase (cfg : Cfg) (s : EOSState) : EOSState :=
  scanAux cfg (cfg.intEntries - 1) s

/-- The free-running-clock advance at the top of
`eos_interrupt_timer_body` (eos.c:945-948). -/
def clockPhase (s : EOSState) : EOSState :=
  { s with digic_timer20 := (s.digic_timer20 + DIGIC_TIMER_STEP) &&& DIGIC_TIMER20_MASK,
           digic_timer32 := (s.digic_timer32 + DIGIC_TIMER_STEP) &&& DIGIC_TIMER32_MASK }

/-- One countdown-timer slot of the loop at eos.c:950-961.  The
`+=` is on a `uint32_t`, hence the explicit `% 2^32`. -/
def tickSlot (pos : Nat) (s : EOSState) : EOSState :=
  if s.timer_enabled pos then
    let c := (s.timer_current_value pos + DIGIC_TIMER_STEP) % 2 ^ 32
    let c' := if c > s.timer_reload_value pos then 0 else c
    { s with timer_current_value := upd s.timer_current_value pos c' }
  else s

/-- The countdown-timer loop (`for pos = 0 .. COUNT-1`); slot `k` is
applied after slots `0..k-1`, matching the ascending C loop. -/
def countdownAux : Nat → EOSState → EOSState
  | 0, s => s
  | k + 1, s => tickSlot k (countdownAux k s)

def countdownPhase (cfg : Cfg) (s : EOSState) : EOSState :=
  countdownAux cfg.numTimers s

/-- Table `utimer_interrupts` (eos.c:1007). -/
def utimer_interrupts : List Nat := [0x0E, 0x1E, 0x2E, 0x3E, 0x4E, 0x5E, 0x6E, 0x7E]

/-- One UTimer check of the loop at eos.c:1011-1024. -/
def utSlot (id : Nat) (s : EOSState) : EOSState :=
  if (s.UTimers id).active ∧ (s.UTimers id).output_compare = s.digic_timer32 then
    let s' := { s with UTimers := upd s.UTimers id { s.UTimers id with triggered := true } }
    eos_trigger_int (utimer_interrupts.getD id 0) 0 s'
  else s

def utAux : Nat → EOSState → EOSState
  | 0, s => s
  | k + 1, s => utSlot k (utAux k s)

/-- The UTimer loop over all 8 slots (`COUNT(eos_state->UTimers)`). -/
def utPhase (s : EOSState) : EOSState := utAux 8 s

/-- Table `hptimer_interrupts` (eos.c:1028-1032). -/
def hptimer_interrupts (cfg : Cfg) : List Nat :=
  [0x18, 0x1A, 0x1C, 0x1E, 0, 0] ++ List.replicate 8 cfg.hptimerInterrupt

/-- One HPTimer check of the collection loop at eos.c:1034-1049:
sets `triggered` and records the mapped interrupt id in the
`trigger_hptimers` bit array (so slots sharing an id are OR-ed). -/
def hpSlot (cfg : Cfg) (pos : Nat) (st : EOSState × (Nat → Bool)) : EOSState × (Nat → Bool) :=
  if (st.1.HPTimers pos).active ∧ (st.1.HPTimers pos).output_compare = st.1.digic_timer20 then
    ({ st.1 with HPTimers := upd st.1.HPTimers pos { st.1.HPTimers pos with triggered := true } },
     upd st.2 ((hptimer_interrupts cfg).getD pos 0) true)
  else st

def hpCollectAux (cfg : Cfg) : Nat → EOSState × (Nat → Bool) → EOSState × (Nat → Bool)
  | 0, st => st
  | k + 1, st => hpSlot cfg k (hpCollectAux cfg k st)

/-- The fire loop at eos.c:1051-1057: `for (i = 1; i < 64; i++)`
triggers each recorded id once; `hpTrigAux trig k` handles ids `1..k`
in ascending order. -/
def hpTrigAux (trig : Nat → Bool) : Nat → EOSState → EOSState
  | 0, s => s
  | k + 1, s => if trig (k + 1) then eos_trigger_int (k + 1) 0 (hpTrigAux trig k s)
                else hpTrigAux trig k s

/-- The HPTimer part of a tick: collect over the 14 slots
(`COUNT(eos_state->HPTimers)`), then fire the OR-ed ids. -/
def hpPhase (cfg : Cfg) (s : EOSState) : EOSState :=
  hpTrigAux (hpCollectAux cfg 14 (s, fun _ => false)).2 63 (hpCollectAux cfg 14 (s, fun _ => false)).1

/-- One invocation of `eos_interrupt_timer_body` (eos.c:930).  The
trailing CompactFlash DMA polling block (eos.c:1059-1073) belongs to
the storage-transport shims, which the spec places out of scope; every
interrupt it can raise goes through `eos_trigger_int` and is therefore
representable as explicit `Op.trig` events in the traces below.  The
`cpu_is_stopped` early-outs are debugger-only and external to the
peripheral state. -/
def eosTick (cfg : Cfg) (s : EOSState) : EOSState :=
  hpPhase cfg (utPhase (irqScanPhase cfg (countdownPhase cfg (clockPhase s))))

/-- Events that can hit the interrupt controller between an activation
and its acknowledgment: a `trigger` call from any peripheral, a tick of
the periodic driver, an interrupt-enable register write
(`eos_handle_intengine`, offset 0x10: `irq_enabled[value] = 1`). -/
inductive Op : Type
  | trig (id delay : Nat)
  | tick
  | enableInt (id : Nat)
deriving DecidableEq

/-- Write `irq_enabled[value] = 1` (eos.c:2746). -/
def enableInt (id : Nat) (s : EOSState) : EOSState :=
  { s with irq_enabled := upd s.irq_enabled id true }

def stepOp (cfg : Cfg) (s : EOSState) : Op → EOSState
  | Op.trig id delay => eos_trigger_int id delay s
  | Op.tick => eosTick cfg s
  | Op.enableInt id => enableInt id s

def runOps (cfg : Cfg) (ops : List Op) (s : EOSState) : EOSState :=
  ops.foldl (stepOp cfg) s

/-- The per-tick transformation of one enabled countdown timer
(eos.c:954-959): add the step modulo `2^32`, then reset to 0 on
strict overshoot of the reload value. -/
def ctick (c r : Nat) : Nat :=
  if (c + DIGIC_TIMER_STEP) % 2 ^ 32 > r then 0 else (c + DIGIC_TIMER_STEP) % 2 ^ 32

/-! ## The interrupt-controller registers (`eos_handle_intengine`) -/

/-- The interrupt-reason register addresses of the `switch(address)`
at eos.c:2702-2710 (only `0xC0201004` has a non-zero low nibble and
returns `irq_id << 2`). -/
def reason_addrs : List Nat := [0xC0201000, 0xC0201004, 0xD4011000, 0xD0211000, 0xD231A000, 0xD02C0290]

/-- The interrupt-enable register addresses (eos.c:2736-2740). -/
def enable_addrs : List Nat := [0xC0201010, 0xD4011010, 0xD0211010, 0xD231A010, 0xD02C029C]

/-- The IRQ-reset register addresses (eos.c:2765-2769). -/
def reset_addrs : List Nat := [0xC0201200, 0xD4011200, 0xD0211200, 0xD231A200, 0xD02C02CC]

/-- Function `eos_handle_intengine` (eos.c:2695-2792), restricted to its
machine-state effect: reading the reason register returns
`irq_id << ((address & 0xF) ? 2 : 0)`, zeroes `irq_id` and calls
`cpu_reset_interrupt` (modelled as `intLine := false`); writing the
enable register sets `irq_enabled[value] = 1`; writing a non-zero
value to the reset register zeroes `irq_id` and drops the line.
Returns the register value plus the successor state. -/
def eos_handle_intengine (address : Nat) (isWrite : Bool) (value : Nat) (s : EOSState) : Nat × EOSState :=
  if address ∈ reason_addrs then
    if isWrite then (0, s)
    else
      (s.irq_id <<< (if address &&& 0xF ≠ 0 then 2 else 0),
       { s with irq_id := 0, intLine := false })
  else if address ∈ enable_addrs then
    if isWrite then (0, enableInt value s) else (0, s)
  else if address ∈ reset_addrs then
    if isWrite ∧ value ≠ 0 then (0, { s with irq_id := 0, intLine := false }) else (0, s)
  else (0, s)

/-- A "deassert event" of the CPU interrupt line across one step: the
level was high before and low after. -/
def deassertEvent (before after : EOSState) : Prop :=
  before.intLine = true ∧ after.intLine = false

/-! ## Output-compare arming (`eos_handle_hptimer` / `eos_handle_utimer`) -/

/-- Arming an HPTimer output-compare register (eos.c:3169-3190).
`rounded = (value + DIGIC_TIMER_STEP) & DIGIC_TIMER20_MASK`; the C
`actual_delay = ((int32_t)(rounded - digic_timer20) << 12) >> 12`
sign-extends the low 20 bits of the `uint32_t` difference, so (for
`digic20 < 2^32`) it is negative exactly when
`(rounded + 2^20 - digic20 % 2^20) % 2^20 ≥ 2^19`; in that case the
compare value snaps to `digic20 + DIGIC_TIMER_STEP` (a plain
`uint32_t` sum, not masked to 20 bits). -/
def hp_set_compare (digic20 : Nat) (t : OCTimer) (value : Nat) : OCTimer :=
  let rounded := (value + DIGIC_TIMER_STEP) &&& DIGIC_TIMER20_MASK
  let diff := (rounded + 2 ^ 20 - digic20 % 2 ^ 20) % 2 ^ 20
  if 2 ^ 19 ≤ diff then { t with output_compare := (digic20 + DIGIC_TIMER_STEP) % 2 ^ 32 }
  else { t with output_compare := rounded }

/-- Arming a UTimer output-compare register (eos.c:3095-3110); same
pattern in the 32-bit domain: `actual_delay = (int32_t)(rounded -
digic_timer32)` is negative exactly when the `uint32_t` difference is
`≥ 2^31`. -/
def ut_set_compare (digic32 : Nat) (t : OCTimer) (value : Nat) : OCTimer :=
  let rounded := (value + DIGIC_TIMER_STEP) &&& DIGIC_TIMER32_MASK
  let diff := (rounded + 2 ^ 32 - digic32 % 2 ^ 32) % 2 ^ 32
  if 2 ^ 31 ≤ diff then { t with output_compare := (digic32 + DIGIC_TIMER_STEP) % 2 ^ 32 }
  else { t with output_compare := rounded }

/-- One tick of the 20-bit free-running clock (eos.c:945-946), as used
by `clockPhase`. -/
def digic20_step (d : Nat) : Nat := (d + DIGIC_TIMER_STEP) &&& DIGIC_TIMER20_MASK

/-! ## The synchronous DMA engine (`eos_handle_dma`) -/

/-- Byte-granular physical memory as seen by `eos_mem_read` /
`eos_mem_write`. -/
def MemB : Type := Nat → Nat

/-- Read `eos_mem_read(addr, buf, n)`: the n bytes starting at `addr`. -/
def readBytes (mem : MemB) (addr n : Nat) : List Nat :=
  (List.range n).map (fun i => mem (addr + i))

/-- Write `eos_mem_write(addr, buf, n)`: store the buffer at `addr`. -/
def writeBytes (mem : MemB) (addr : Nat) (buf : List Nat) : MemB :=
  fun x => if addr ≤ x ∧ x < addr + buf.length then buf.getD (x - addr) 0 else mem x

/-- The copy loop of the "Start DMA" case (eos.c:3912-3928): while
bytes remain, read a chunk of at most `blocksize = 8192` bytes from
the source into the bounce buffer and write it to the destination. -/
def dma_copy_loop (mem : MemB) (src dst remain : Nat) : MemB :=
  if _h : remain = 0 then mem
  else
    let transfer := if remain > 8192 then 8192 else remain
    let mem' := writeBytes mem dst (readBytes mem src transfer)
    dma_copy_loop mem' (src + transfer) (dst + transfer) (remain - transfer)
termination_by remain
decreasing_by
  split <;> omega

/-- Table `interruptId` of `eos_handle_dma` (eos.c:3900). -/
def dma_interruptId : List Nat := [0x00, 0x2F, 0x74, 0x75, 0x76, 0xA0, 0xA1, 0xA8, 0xA9]

/-- The effect of a "start" write (`value & 1`) to the DMA control
register (eos.c:3905-3940): the whole copy is performed synchronously,
then the completion interrupt is requested with
`eos_trigger_int(interruptId[parm], count / 10000)`. -/
def dma_start (parm srcAddr dstAddr count : Nat) (mem : MemB) (s : EOSState) : MemB × EOSState :=
  (dma_copy_loop mem srcAddr dstAddr count,
   eos_trigger_int (dma_interruptId.getD parm 0) (count / 10000) s)

/-! ## The MMIO dispatch registry (`eos_handlers` / `eos_handler`) -/

/-- Word-granular memory as accessed by
`cpu_physical_memory_read/write(address, &data, 4)` in
`eos_default_handle`. -/
def Mem32 : Type := Nat → Nat

/-- One row of the `eos_handlers` table: `{label, start, end, handle,
parm}` (the diagnostic `label` string has no machine effect and is
omitted; `end` is a Lean keyword, hence `end'`).  A handler gets
`(parm, address, type, value)` and the memory it may access, and
returns the register value plus the memory. -/
structure EOSRegionHandler where
  start : Nat
  end' : Nat
  handle : Nat → Nat → Bool → Nat → Mem32 → Nat × Mem32
  parm : Nat

/-- Function `eos_find_handler(address)` (eos.c:2369-2381): first entry whose
inclusive `[start, end]` range contains the address. -/
def eos_find_handler (handlers : List EOSRegionHandler) (address : Nat) : Option EOSRegionHandler :=
  handlers.find? (fun h => decide (h.start ≤ address ∧ address ≤ h.end'))

/-- Function `eos_handler(address, type, value)` (eos.c:2383-2396): dispatch to
the first matching handler; with no match, log `*unk*` and return 0 —
the memory is not touched on that path. -/
def eos_handler (handlers : List EOSRegionHandler) (address : Nat) (isWrite : Bool) (value : Nat) (mem : Mem32) : Nat × Mem32 :=
  match eos_find_handler handlers address with
  | some h => h.handle h.parm address isWrite value mem
  | none => (0, mem)

/-- The behaviour the spec ascribes to the no-match path ("a default
handler performs the raw memory access ... and returns 0 for reads"),
written from the spec's words for comparison against `eos_handler`. -/
def default_handle_claimed (address : Nat) (isWrite : Bool) (value : Nat) (mem : Mem32) : Nat × Mem32 :=
  if isWrite then (0, upd mem address value) else (0, mem)

/-- Function `eos_default_handle(address, type, value)` (eos.c:2329-2367).
State: the static parity counter `mod`, plus the word memory.  A write
stores `value`; a read fetches the word.  Accesses whose top nibble is
0x0, 0x4 or 0xF (RAM/flash) return the plain data; for the rest, a
read flips the static counter and, on the odd phase, returns the
bitwise complement (`~data`, i.e. xor with `0xFFFFFFFF`) of the
fetched word.  Returns (value read, new counter, new memory). -/
def eos_default_handle (mod : Nat) (mem : Mem32) (address : Nat) (isWrite : Bool) (value : Nat) : Nat × Nat × Mem32 :=
  if isWrite then
    let mem' := upd mem address value
    (0, mod, mem')
  else
    let data := mem address
    if (address &&& 0xF0000000) = 0 ∨ (address &&& 0xF0000000) = 0xF0000000 ∨ (address &&& 0xF0000000) = 0x40000000 then
      (data, mod, mem)
    else
      let m := (mod + 1) % 2
      (if m ≠ 0 then 0xFFFFFFFF ^^^ data else data, m, mem)

/-! ## Concrete configuration and states for witnesses -/

/-- A representative configuration: the values of the `eos.h`
constants play no role in the theorems (which quantify over `Cfg`),
they are only needed to instantiate witnesses. -/
def cfg0 : Cfg :=
  { intEntries := 0x200, timerInterrupt := 0x0A, dryosTimerId := 2, hptimerInterrupt := 0x10, numTimers := 12 }

/-- An idle output-compare slot. -/
def ocIdle : OCTimer := { active := false, output_compare := 0, triggered := false }

/-- A completely idle machine state. -/
def idleState : EOSState :=
  { irq_enabled := fun _ => false
    irq_schedule := fun _ => 0
    irq_id := 0
    intLine := false
    intAsserts := 0
    timer_enabled := fun _ => false
    timer_current_value := fun _ => 0
    timer_reload_value := fun _ => 0
    digic_timer20 := 0
    digic_timer32 := 0
    UTimers := fun _ => ocIdle
    HPTimers := fun _ => ocIdle }

/-- Witness state for the tick re-arm theorem: periodic-timer id 0x0A
pending and enabled, DryOS timer (slot 2) reload value 2560. -/
def rearmState : EOSState :=
  { idleState with irq_enabled := upd idleState.irq_enabled 0x0A true,
                   irq_schedule := upd idleState.irq_schedule 0x0A 1,
                   timer_reload_value := upd idleState.timer_reload_value 2 2560 }

/-- The countdown-timer scenario of the spec (`STEP=256`,
`reload_value=2560`, timer slot 0 enabled): the current value of slot
0 after `n` ticks. -/
def countdownIter (n : Nat) : Nat :=
  ((eosTick cfg0)^[n]
    { idleState with timer_enabled := upd idleState.timer_enabled 0 true,
                     timer_reload_value := upd idleState.timer_reload_value 0 2560 }).timer_current_value 0


/-! ## Basic facts about `eos_trigger_int` -/

/-- Immediate activation (the `if` branch of eos.c:2423-2432). -/
theorem trigger_activate {id delay : Nat} {s : EOSState}
    (hd : delay = 0) (he : s.irq_enabled id = true) (hi : s.irq_id = 0) :
    eos_trigger_int id delay s =
      { s with irq_id := id,
               irq_enabled := upd s.irq_enabled id false,
               intLine := true,
               intAsserts := s.intAsserts + 1 } := by
  unfold eos_trigger_int
  rw [if_pos ⟨hd, he, hi⟩]

/-- The delayed branch (eos.c:2433-2443). -/
theorem trigger_delayed {id delay : Nat} {s : EOSState}
    (h : ¬(delay = 0 ∧ s.irq_enabled id = true ∧ s.irq_id = 0)) :
    eos_trigger_int id delay s = { s with irq_schedule := upd s.irq_schedule id (if s.irq_enabled id then max delay 1 else 1) } := by
  unfold eos_trigger_int
  rw [if_neg]
  simpa using h

/-- A trigger while an interrupt is active takes the delayed branch. -/
theorem trigger_busy {id delay : Nat} {s : EOSState} (h : s.irq_id ≠ 0) :
    eos_trigger_int id delay s = { s with irq_schedule := upd s.irq_schedule id (if s.irq_enabled id then max delay 1 else 1) } :=
  trigger_delayed (by simp [h])

/-- A zero-delay trigger while busy writes exactly 1 into the schedule
slot, in both the enabled and the masked case. -/
theorem trigger_busy_zero {id : Nat} {s : EOSState} (h : s.irq_id ≠ 0) :
    eos_trigger_int id 0 s =
      { s with irq_schedule := upd s.irq_schedule id 1 } := by
  rw [trigger_busy h]
  congr 1
  split <;> rfl

@[simp] theorem trigger_timer_enabled (id delay : Nat) (s : EOSState) :
    (eos_trigger_int id delay s).timer_enabled = s.timer_enabled := by
  unfold eos_trigger_int; split <;> rfl

@[simp] theorem trigger_timer_current (id delay : Nat) (s : EOSState) :
    (eos_trigger_int id delay s).timer_current_value = s.timer_current_value := by
  unfold eos_trigger_int; split <;> rfl

@[simp] theorem trigger_timer_reload (id delay : Nat) (s : EOSState) :
    (eos_trigger_int id delay s).timer_reload_value = s.timer_reload_value := by
  unfold eos_trigger_int; split <;> rfl

@[simp] theorem trigger_digic20 (id delay : Nat) (s : EOSState) :
    (eos_trigger_int id delay s).digic_timer20 = s.digic_timer20 := by
  unfold eos_trigger_int; split <;> rfl

@[simp] theorem trigger_digic32 (id delay : Nat) (s : EOSState) :
    (eos_trigger_int id delay s).digic_timer32 = s.digic_timer32 := by
  unfold eos_trigger_int; split <;> rfl

@[simp] theorem trigger_UTimers (id delay : Nat) (s : EOSState) :
    (eos_trigger_int id delay s).UTimers = s.UTimers := by
  unfold eos_trigger_int; split <;> rfl

@[simp] theorem trigger_HPTimers (id delay : Nat) (s : EOSState) :
    (eos_trigger_int id delay s).HPTimers = s.HPTimers := by
  unfold eos_trigger_int; split <;> rfl

/-! ## Facts about one scan iteration -/

theorem servIrqAct_of_neg {cfg : Cfg} {pos : Nat} {s : EOSState}
    (h : ¬(s.irq_schedule pos = 1 ∧ s.irq_enabled pos = true ∧ s.irq_id = 0)) :
    servIrqAct cfg pos s = s := by
  unfold servIrqAct
  rw [if_neg]
  simpa using h

theorem servIrqAct_of_pos {cfg : Cfg} {pos : Nat} {s : EOSState}
    (h1 : s.irq_schedule pos = 1) (h2 : s.irq_enabled pos = true) (h3 : s.irq_id = 0) :
    servIrqAct cfg pos s =
      { s with irq_schedule := upd s.irq_schedule pos (if pos = cfg.timerInterrupt then s.timer_reload_value cfg.dryosTimerId >>> 8 else 0),
               irq_id := pos,
               irq_enabled := upd s.irq_enabled pos false,
               intLine := true,
               intAsserts := s.intAsserts + 1 } := by
  unfold servIrqAct
  rw [if_pos ⟨h1, h2, h3⟩]

theorem servIrqDec_of_le {pos : Nat} {s : EOSState}
    (h : s.irq_schedule pos ≤ 1) : servIrqDec pos s = s := by
  unfold servIrqDec
  rw [if_neg (by omega)]

theorem servIrqDec_of_gt {pos : Nat} {s : EOSState}
    (h : s.irq_schedule pos > 1) :
    servIrqDec pos s = { s with irq_schedule := upd s.irq_schedule pos (s.irq_schedule pos - 1) } := by
  unfold servIrqDec
  rw [if_pos h]

/-- A scan iteration at an idle slot is a no-op. -/
theorem servIrq_idle {cfg : Cfg} {pos : Nat} {s : EOSState}
    (h : s.irq_schedule pos = 0) : servIrq cfg pos s = s := by
  unfold servIrq
  rw [servIrqAct_of_neg (by simp [h]), servIrqDec_of_le (by omega)]

/-- A scan iteration that does not activate: the interrupt bookkeeping
other than the countdown of this slot is untouched. -/
theorem servIrq_no_activation {cfg : Cfg} {pos : Nat} {s : EOSState}
    (h : ¬(s.irq_schedule pos = 1 ∧ s.irq_enabled pos = true ∧ s.irq_id = 0)) :
    servIrq cfg pos s = servIrqDec pos s := by
  unfold servIrq
  rw [servIrqAct_of_neg h]

@[simp] theorem servIrqDec_irq_id (pos : Nat) (s : EOSState) :
    (servIrqDec pos s).irq_id = s.irq_id := by
  unfold servIrqDec; split <;> rfl

@[simp] theorem servIrqDec_enabled (pos : Nat) (s : EOSState) :
    (servIrqDec pos s).irq_enabled = s.irq_enabled := by
  unfold servIrqDec; split <;> rfl

@[simp] theorem servIrqDec_line (pos : Nat) (s : EOSState) :
    (servIrqDec pos s).intLine = s.intLine := by
  unfold servIrqDec; split <;> rfl

@[simp] theorem servIrqDec_asserts (pos : Nat) (s : EOSState) :
    (servIrqDec pos s).intAsserts = s.intAsserts := by
  unfold servIrqDec; split <;> rfl

theorem servIrqDec_sched_other {pos q : Nat} (s : EOSState) (h : q ≠ pos) :
    (servIrqDec pos s).irq_schedule q = s.irq_schedule q := by
  unfold servIrqDec
  split
  · simp [upd, h]
  · rfl

theorem servIrqDec_sched_le {pos q : Nat} (s : EOSState) (h : s.irq_schedule q ≤ 1) :
    (servIrqDec pos s).irq_schedule q = s.irq_schedule q := by
  by_cases hq : q = pos
  · subst hq
    rw [servIrqDec_of_le h]
  · exact servIrqDec_sched_other s hq

theorem servIrqAct_timer_fields (cfg : Cfg) (pos : Nat) (s : EOSState) :
    (servIrqAct cfg pos s).timer_enabled = s.timer_enabled ∧
    (servIrqAct cfg pos s).timer_current_value = s.timer_current_value ∧
    (servIrqAct cfg pos s).timer_reload_value = s.timer_reload_value ∧
    (servIrqAct cfg pos s).digic_timer20 = s.digic_timer20 ∧
    (servIrqAct cfg pos s).digic_timer32 = s.digic_timer32 ∧
    (servIrqAct cfg pos s).UTimers = s.UTimers ∧
    (servIrqAct cfg pos s).HPTimers = s.HPTimers := by
  unfold servIrqAct
  split <;> exact ⟨rfl, rfl, rfl, rfl, rfl, rfl, rfl⟩

theorem servIrqDec_timer_fields (pos : Nat) (s : EOSState) :
    (servIrqDec pos s).timer_enabled = s.timer_enabled ∧
    (servIrqDec pos s).timer_current_value = s.timer_current_value ∧
    (servIrqDec pos s).timer_reload_value = s.timer_reload_value ∧
    (servIrqDec pos s).digic_timer20 = s.digic_timer20 ∧
    (servIrqDec pos s).digic_timer32 = s.digic_timer32 ∧
    (servIrqDec pos s).UTimers = s.UTimers ∧
    (servIrqDec pos s).HPTimers = s.HPTimers := by
  unfold servIrqDec
  split <;> exact ⟨rfl, rfl, rfl, rfl, rfl, rfl, rfl⟩

/-- Iteration `servIrq` touches none of the timer or clock state. -/
theorem servIrq_timer_fields (cfg : Cfg) (pos : Nat) (s : EOSState) :
    (servIrq cfg pos s).timer_enabled = s.timer_enabled ∧
    (servIrq cfg pos s).timer_current_value = s.timer_current_value ∧
    (servIrq cfg pos s).timer_reload_value = s.timer_reload_value ∧
    (servIrq cfg pos s).digic_timer20 = s.digic_timer20 ∧
    (servIrq cfg pos s).digic_timer32 = s.digic_timer32 ∧
    (servIrq cfg pos s).UTimers = s.UTimers ∧
    (servIrq cfg pos s).HPTimers = s.HPTimers := by
  obtain ⟨a1, a2, a3, a4, a5, a6, a7⟩ := servIrqAct_timer_fields cfg pos s
  obtain ⟨d1, d2, d3, d4, d5, d6, d7⟩ := servIrqDec_timer_fields pos (servIrqAct cfg pos s)
  exact ⟨d1.trans a1, d2.trans a2, d3.trans a3, d4.trans a4, d5.trans a5, d6.trans a6, d7.trans a7⟩

/-! ## Facts about the scan loop -/

/-- If no position in `1..n` can activate at its turn, the scan keeps
the activation-related state intact: it only counts down schedules
`> 1` at the scanned positions. -/
theorem scanAux_inert (cfg : Cfg) (n : Nat) (s : EOSState)
    (H : ∀ p, 1 ≤ p → p ≤ n → ¬(s.irq_schedule p = 1 ∧ s.irq_enabled p = true ∧ s.irq_id = 0)) :
    (scanAux cfg n s).irq_id = s.irq_id ∧
    (scanAux cfg n s).irq_enabled = s.irq_enabled ∧
    (scanAux cfg n s).intLine = s.intLine ∧
    (scanAux cfg n s).intAsserts = s.intAsserts ∧
    (∀ q, n < q → (scanAux cfg n s).irq_schedule q = s.irq_schedule q) ∧
    (∀ q, s.irq_schedule q ≤ 1 → (scanAux cfg n s).irq_schedule q = s.irq_schedule q) := by
  induction n generalizing s with
  | zero => exact ⟨rfl, rfl, rfl, rfl, fun q _ => rfl, fun q _ => rfl⟩
  | succ p ih =>
    have hstep : servIrq cfg (p + 1) s = servIrqDec (p + 1) s :=
      servIrq_no_activation (H (p + 1) (by omega) (by omega))
    have hscan : scanAux cfg (p + 1) s = scanAux cfg p (servIrqDec (p + 1) s) := by
      rw [scanAux, hstep]
    set s' := servIrqDec (p + 1) s with hs'
    have hH : ∀ q, 1 ≤ q → q ≤ p → ¬(s'.irq_schedule q = 1 ∧ s'.irq_enabled q = true ∧ s'.irq_id = 0) := by
      intro q h1 h2
      rw [hs', servIrqDec_sched_other s (by omega), servIrqDec_enabled, servIrqDec_irq_id]
      exact H q h1 (by omega)
    obtain ⟨e1, e2, e3, e4, e5, e6⟩ := ih s' hH
    rw [hscan]
    refine ⟨?_, ?_, ?_, ?_, ?_, ?_⟩
    · rw [e1, hs', servIrqDec_irq_id]
    · rw [e2, hs', servIrqDec_enabled]
    · rw [e3, hs', servIrqDec_line]
    · rw [e4, hs', servIrqDec_asserts]
    · intro q hq
      rw [e5 q (by omega), hs', servIrqDec_sched_other s (by omega)]
    · intro q hq
      have : s'.irq_schedule q = s.irq_schedule q := by
        rw [hs']; exact servIrqDec_sched_le s hq
      rw [e6 q (by omega : s'.irq_schedule q ≤ 1)]
      exact this

theorem upd_upd_same {α : Type} (f : Nat → α) (i : Nat) (a b : α) :
    upd (upd f i a) i b = upd f i b := by
  funext j
  by_cases h : j = i <;> simp [upd, h]

/-- A scan iteration at a pending, enabled slot with no active
interrupt activates it: `irq_id` becomes the slot id, the slot is
masked, the line is asserted, and the schedule slot becomes the re-arm
value `k` (`timer_reload_value[DRYOS_TIMER_ID] >> 8` for the periodic
timer id, `0` otherwise), immediately subject to the same iteration's
`> 1` countdown. -/
theorem servIrq_activate {cfg : Cfg} {j : Nat} {s : EOSState}
    (hsj : s.irq_schedule j = 1) (hej : s.irq_enabled j = true) (hid : s.irq_id = 0)
    (k : Nat) (hk : k = if j = cfg.timerInterrupt then s.timer_reload_value cfg.dryosTimerId >>> 8 else 0) :
    servIrq cfg j s =
      { s with irq_schedule := upd s.irq_schedule j (if 1 < k then k - 1 else k),
               irq_id := j,
               irq_enabled := upd s.irq_enabled j false,
               intLine := true,
               intAsserts := s.intAsserts + 1 } := by
  unfold servIrq
  rw [servIrqAct_of_pos hsj hej hid, ← hk]
  by_cases h1 : 1 < k
  · rw [servIrqDec_of_gt (by simpa using h1)]
    simp only [upd_same, upd_upd_same, if_pos h1]
  · rw [servIrqDec_of_le (by simpa using Nat.not_lt.mp h1)]
    rw [if_neg h1]

/-- Scanning from `n` down to 1 when the single activatable slot is
`j`: the scan activates exactly `j` and touches nothing else (apart
from counting down unrelated schedules `> 1`). -/
theorem scanAux_activate (cfg : Cfg) (n j : Nat) (s : EOSState)
    (hj1 : 1 ≤ j) (hjn : j ≤ n)
    (hsj : s.irq_schedule j = 1) (hej : s.irq_enabled j = true) (hid : s.irq_id = 0)
    (Habove : ∀ p, j < p → p ≤ n → ¬(s.irq_schedule p = 1 ∧ s.irq_enabled p = true))
    (k : Nat) (hk : k = if j = cfg.timerInterrupt then s.timer_reload_value cfg.dryosTimerId >>> 8 else 0) :
    (scanAux cfg n s).irq_id = j ∧
    (scanAux cfg n s).intLine = true ∧
    (scanAux cfg n s).intAsserts = s.intAsserts + 1 ∧
    (scanAux cfg n s).irq_enabled j = false ∧
    (∀ q, q ≠ j → (scanAux cfg n s).irq_enabled q = s.irq_enabled q) ∧
    (scanAux cfg n s).irq_schedule j = (if 1 < k then k - 1 else k) ∧
    (∀ q, q ≠ j → s.irq_schedule q ≤ 1 → (scanAux cfg n s).irq_schedule q = s.irq_schedule q) := by
  induction n generalizing s with
  | zero => omega
  | succ p ih =>
    by_cases hpj : p + 1 = j
    · -- this is the activating iteration; below it the scan is inert
      subst hpj
      have hact := @servIrq_activate cfg (p + 1) s hsj hej hid k hk
      have hscan : scanAux cfg (p + 1) s = scanAux cfg p (servIrq cfg (p + 1) s) := by
        rw [scanAux]
      rw [hscan, hact]
      obtain ⟨e1, e2, e3, e4, e5, e6⟩ := scanAux_inert cfg p
        { s with irq_schedule := upd s.irq_schedule (p + 1) (if 1 < k then k - 1 else k),
                 irq_id := p + 1,
                 irq_enabled := upd s.irq_enabled (p + 1) false,
                 intLine := true,
                 intAsserts := s.intAsserts + 1 }
        (by intro q h1 h2; simp)
      refine ⟨?_, ?_, ?_, ?_, ?_, ?_, ?_⟩
      · rw [e1]
      · rw [e3]
      · rw [e4]
      · rw [e2]; simp
      · intro q hq
        rw [e2]
        simp only [upd]
        rw [if_neg hq]
      · rw [e5 (p + 1) (by omega)]; simp
      · intro q hq hq1
        have hsq : upd s.irq_schedule (p + 1) (if 1 < k then k - 1 else k) q = s.irq_schedule q := by
          simp only [upd]
          rw [if_neg hq]
        rw [e6 q (by show upd s.irq_schedule (p + 1) (if 1 < k then k - 1 else k) q ≤ 1; rw [hsq]; exact hq1)]
        exact hsq
    · -- p + 1 > j: inert iteration, recurse
      have hgt : j < p + 1 := by omega
      have hnot : ¬(s.irq_schedule (p + 1) = 1 ∧ s.irq_enabled (p + 1) = true ∧ s.irq_id = 0) := by
        intro ⟨h1, h2, _⟩
        exact Habove (p + 1) hgt (by omega) ⟨h1, h2⟩
      have hstep : servIrq cfg (p + 1) s = servIrqDec (p + 1) s :=
        servIrq_no_activation hnot
      have hscan : scanAux cfg (p + 1) s = scanAux cfg p (servIrqDec (p + 1) s) := by
        rw [scanAux, hstep]
      have ihh := ih (servIrqDec (p + 1) s) (by omega)
        (by rw [servIrqDec_sched_other s (by omega)]; exact hsj)
        (by rw [servIrqDec_enabled]; exact hej)
        (by rw [servIrqDec_irq_id]; exact hid)
        (by
          intro q hq1 hq2
          rw [servIrqDec_sched_other s (by omega), servIrqDec_enabled]
          exact Habove q hq1 (by omega))
        (by rw [servIrqDec_timer_fields (p + 1) s |>.2.2.1]; exact hk)
      obtain ⟨e1, e2, e3, e4, e5, e6, e7⟩ := ihh
      rw [hscan]
      refine ⟨e1, e2, ?_, e4, ?_, e6, ?_⟩
      · rw [e3, servIrqDec_asserts]
      · intro q hq
        rw [e5 q hq, servIrqDec_enabled]
      · intro q hq hq1
        have hsq : (servIrqDec (p + 1) s).irq_schedule q = s.irq_schedule q :=
          servIrqDec_sched_le s hq1
        rw [e7 q hq (by rw [hsq]; exact hq1)]
        exact hsq

/-! ## Clock and countdown-timer phases -/

@[simp] theorem clockPhase_irq_enabled (s : EOSState) : (clockPhase s).irq_enabled = s.irq_enabled := rfl
@[simp] theorem clockPhase_irq_schedule (s : EOSState) : (clockPhase s).irq_schedule = s.irq_schedule := rfl
@[simp] theorem clockPhase_irq_id (s : EOSState) : (clockPhase s).irq_id = s.irq_id := rfl
@[simp] theorem clockPhase_line (s : EOSState) : (clockPhase s).intLine = s.intLine := rfl
@[simp] theorem clockPhase_asserts (s : EOSState) : (clockPhase s).intAsserts = s.intAsserts := rfl
@[simp] theorem clockPhase_timer_enabled (s : EOSState) : (clockPhase s).timer_enabled = s.timer_enabled := rfl
@[simp] theorem clockPhase_timer_current (s : EOSState) : (clockPhase s).timer_current_value = s.timer_current_value := rfl
@[simp] theorem clockPhase_timer_reload (s : EOSState) : (clockPhase s).timer_reload_value = s.timer_reload_value := rfl
@[simp] theorem clockPhase_UTimers (s : EOSState) : (clockPhase s).UTimers = s.UTimers := rfl
@[simp] theorem clockPhase_HPTimers (s : EOSState) : (clockPhase s).HPTimers = s.HPTimers := rfl

theorem tickSlot_non_current (pos : Nat) (s : EOSState) :
    (tickSlot pos s).irq_enabled = s.irq_enabled ∧
    (tickSlot pos s).irq_schedule = s.irq_schedule ∧
    (tickSlot pos s).irq_id = s.irq_id ∧
    (tickSlot pos s).intLine = s.intLine ∧
    (tickSlot pos s).intAsserts = s.intAsserts ∧
    (tickSlot pos s).timer_enabled = s.timer_enabled ∧
    (tickSlot pos s).timer_reload_value = s.timer_reload_value ∧
    (tickSlot pos s).digic_timer20 = s.digic_timer20 ∧
    (tickSlot pos s).digic_timer32 = s.digic_timer32 ∧
    (tickSlot pos s).UTimers = s.UTimers ∧
    (tickSlot pos s).HPTimers = s.HPTimers := by
  unfold tickSlot
  split <;> exact ⟨rfl, rfl, rfl, rfl, rfl, rfl, rfl, rfl, rfl, rfl, rfl⟩

theorem tickSlot_current (pos t : Nat) (s : EOSState) :
    (tickSlot pos s).timer_current_value t =
      if t = pos ∧ s.timer_enabled t = true then ctick (s.timer_current_value t) (s.timer_reload_value t)
      else s.timer_current_value t := by
  unfold tickSlot ctick
  by_cases he : s.timer_enabled pos = true
  · rw [if_pos he]
    by_cases ht : t = pos
    · subst ht
      simp [he]
    · simp [upd, ht]
  · rw [if_neg he]
    have : ¬(t = pos ∧ s.timer_enabled t = true) := by
      intro ⟨h1, h2⟩; exact he (h1 ▸ h2)
    rw [if_neg this]

theorem countdownAux_non_current (n : Nat) (s : EOSState) :
    (countdownAux n s).irq_enabled = s.irq_enabled ∧
    (countdownAux n s).irq_schedule = s.irq_schedule ∧
    (countdownAux n s).irq_id = s.irq_id ∧
    (countdownAux n s).intLine = s.intLine ∧
    (countdownAux n s).intAsserts = s.intAsserts ∧
    (countdownAux n s).timer_enabled = s.timer_enabled ∧
    (countdownAux n s).timer_reload_value = s.timer_reload_value ∧
    (countdownAux n s).digic_timer20 = s.digic_timer20 ∧
    (countdownAux n s).digic_timer32 = s.digic_timer32 ∧
    (countdownAux n s).UTimers = s.UTimers ∧
    (countdownAux n s).HPTimers = s.HPTimers := by
  induction n with
  | zero => exact ⟨rfl, rfl, rfl, rfl, rfl, rfl, rfl, rfl, rfl, rfl, rfl⟩
  | succ k ih =>
    obtain ⟨i1, i2, i3, i4, i5, i6, i7, i8, i9, i10, i11⟩ := ih
    obtain ⟨t1, t2, t3, t4, t5, t6, t7, t8, t9, t10, t11⟩ := tickSlot_non_current k (countdownAux k s)
    exact ⟨t1.trans i1, t2.trans i2, t3.trans i3, t4.trans i4, t5.trans i5, t6.trans i6,
           t7.trans i7, t8.trans i8, t9.trans i9, t10.trans i10, t11.trans i11⟩

/-- The countdown loop applies `ctick` to every enabled slot below the
loop bound and leaves everything else alone. -/
theorem countdownAux_current (n : Nat) (s : EOSState) (t : Nat) :
    (countdownAux n s).timer_current_value t =
      if t < n ∧ s.timer_enabled t = true then ctick (s.timer_current_value t) (s.timer_reload_value t)
      else s.timer_current_value t := by
  induction n with
  | zero => simp [countdownAux]
  | succ k ih =>
    have hen : (countdownAux k s).timer_enabled = s.timer_enabled :=
      (countdownAux_non_current k s).2.2.2.2.2.1
    have hrl : (countdownAux k s).timer_reload_value = s.timer_reload_value :=
      (countdownAux_non_current k s).2.2.2.2.2.2.1
    rw [countdownAux, tickSlot_current, hen, hrl, ih]
    by_cases ht : t = k
    · subst ht
      by_cases he : s.timer_enabled t = true
      · rw [if_pos ⟨rfl, he⟩]
        rw [if_neg (by omega : ¬(t < t ∧ s.timer_enabled t = true))]
        rw [if_pos ⟨by omega, he⟩]
      · rw [if_neg (by intro ⟨_, h⟩; exact he h), if_neg (by intro ⟨_, h⟩; exact he h),
            if_neg (by intro ⟨_, h⟩; exact he h)]
    · rw [if_neg (by intro ⟨h, _⟩; exact ht h)]
      by_cases hlt : t < k ∧ s.timer_enabled t = true
      · rw [if_pos hlt, if_pos ⟨by omega, hlt.2⟩]
      · rw [if_neg hlt, if_neg (by intro ⟨h1, h2⟩; exact hlt ⟨by omega, h2⟩)]

/-! ## Output-compare phases of the tick -/

/-- A delay-0 trigger while an interrupt is active leaves every
observable of the interrupt controller alone except that the schedule
slot of the requested id becomes 1; in particular slots that were 1
stay 1, and no assertion happens. -/
theorem trigger0_busy_preserve {id : Nat} {s : EOSState} (h : s.irq_id ≠ 0) :
    (eos_trigger_int id 0 s).irq_id = s.irq_id ∧
    (eos_trigger_int id 0 s).irq_enabled = s.irq_enabled ∧
    (eos_trigger_int id 0 s).intLine = s.intLine ∧
    (eos_trigger_int id 0 s).intAsserts = s.intAsserts ∧
    (∀ q, s.irq_schedule q = 1 → (eos_trigger_int id 0 s).irq_schedule q = 1) := by
  rw [trigger_busy_zero h]
  refine ⟨rfl, rfl, rfl, rfl, ?_⟩
  intro q hq
  by_cases hqi : q = id
  · subst hqi; simp
  · simp [upd, hqi, hq]

theorem utSlot_inactive {id : Nat} {s : EOSState}
    (h : (s.UTimers id).active = false) : utSlot id s = s := by
  unfold utSlot
  rw [if_neg]
  simp [h]

theorem utAux_inactive {n : Nat} {s : EOSState}
    (h : ∀ u, u < n → (s.UTimers u).active = false) : utAux n s = s := by
  induction n with
  | zero => rfl
  | succ k ih =>
    rw [utAux, ih (fun u hu => h u (by omega)), utSlot_inactive (h k (by omega))]

theorem utPhase_inactive {s : EOSState}
    (h : ∀ u, u < 8 → (s.UTimers u).active = false) : utPhase s = s :=
  utAux_inactive h

/-- While an interrupt is active, a UTimer check cannot assert or
change the controller's visible state (only `triggered` flags and the
schedule slot of its own interrupt id, which becomes 1). -/
theorem utSlot_busy {id : Nat} {s : EOSState} (h : s.irq_id ≠ 0) :
    (utSlot id s).irq_id = s.irq_id ∧
    (utSlot id s).irq_enabled = s.irq_enabled ∧
    (utSlot id s).intLine = s.intLine ∧
    (utSlot id s).intAsserts = s.intAsserts ∧
    (∀ q, s.irq_schedule q = 1 → (utSlot id s).irq_schedule q = 1) ∧
    (utSlot id s).timer_enabled = s.timer_enabled ∧
    (utSlot id s).timer_current_value = s.timer_current_value ∧
    (utSlot id s).timer_reload_value = s.timer_reload_value ∧
    (utSlot id s).digic_timer20 = s.digic_timer20 ∧
    (utSlot id s).digic_timer32 = s.digic_timer32 ∧
    (utSlot id s).HPTimers = s.HPTimers := by
  unfold utSlot
  split
  · obtain ⟨p1, p2, p3, p4, p5⟩ :=
      @trigger0_busy_preserve (utimer_interrupts.getD id 0)
        { s with UTimers := upd s.UTimers id { s.UTimers id with triggered := true } } h
    exact ⟨p1, p2, p3, p4, fun q hq => p5 q hq, by simp, by simp, by simp, by simp, by simp, by simp⟩
  · exact ⟨rfl, rfl, rfl, rfl, fun q hq => hq, rfl, rfl, rfl, rfl, rfl, rfl⟩

theorem utAux_busy {n : Nat} {s : EOSState} (h : s.irq_id ≠ 0) :
    (utAux n s).irq_id = s.irq_id ∧
    (utAux n s).irq_enabled = s.irq_enabled ∧
    (utAux n s).intLine = s.intLine ∧
    (utAux n s).intAsserts = s.intAsserts ∧
    (∀ q, s.irq_schedule q = 1 → (utAux n s).irq_schedule q = 1) ∧
    (utAux n s).timer_enabled = s.timer_enabled ∧
    (utAux n s).timer_current_value = s.timer_current_value ∧
    (utAux n s).timer_reload_value = s.timer_reload_value ∧
    (utAux n s).digic_timer20 = s.digic_timer20 ∧
    (utAux n s).digic_timer32 = s.digic_timer32 ∧
    (utAux n s).HPTimers = s.HPTimers := by
  induction n with
  | zero => exact ⟨rfl, rfl, rfl, rfl, fun q hq => hq, rfl, rfl, rfl, rfl, rfl, rfl⟩
  | succ k ih =>
    obtain ⟨i1, i2, i3, i4, i5, i6, i7, i8, i9, i10, i11⟩ := ih
    obtain ⟨u1, u2, u3, u4, u5, u6, u7, u8, u9, u10, u11⟩ :=
      @utSlot_busy k (utAux k s) (by rw [i1]; exact h)
    rw [utAux]
    exact ⟨u1.trans i1, u2.trans i2, u3.trans i3, u4.trans i4,
           fun q hq => u5 q (i5 q hq), u6.trans i6, u7.trans i7, u8.trans i8,
           u9.trans i9, u10.trans i10, u11.trans i11⟩

theorem hpSlot_fields (cfg : Cfg) (pos : Nat) (st : EOSState × (Nat → Bool)) :
    (hpSlot cfg pos st).1.irq_enabled = st.1.irq_enabled ∧
    (hpSlot cfg pos st).1.irq_schedule = st.1.irq_schedule ∧
    (hpSlot cfg pos st).1.irq_id = st.1.irq_id ∧
    (hpSlot cfg pos st).1.intLine = st.1.intLine ∧
    (hpSlot cfg pos st).1.intAsserts = st.1.intAsserts ∧
    (hpSlot cfg pos st).1.timer_enabled = st.1.timer_enabled ∧
    (hpSlot cfg pos st).1.timer_current_value = st.1.timer_current_value ∧
    (hpSlot cfg pos st).1.timer_reload_value = st.1.timer_reload_value ∧
    (hpSlot cfg pos st).1.digic_timer20 = st.1.digic_timer20 ∧
    (hpSlot cfg pos st).1.digic_timer32 = st.1.digic_timer32 ∧
    (hpSlot cfg pos st).1.UTimers = st.1.UTimers := by
  unfold hpSlot
  split <;> exact ⟨rfl, rfl, rfl, rfl, rfl, rfl, rfl, rfl, rfl, rfl, rfl⟩

theorem hpCollectAux_fields (cfg : Cfg) (n : Nat) (st : EOSState × (Nat → Bool)) :
    (hpCollectAux cfg n st).1.irq_enabled = st.1.irq_enabled ∧
    (hpCollectAux cfg n st).1.irq_schedule = st.1.irq_schedule ∧
    (hpCollectAux cfg n st).1.irq_id = st.1.irq_id ∧
    (hpCollectAux cfg n st).1.intLine = st.1.intLine ∧
    (hpCollectAux cfg n st).1.intAsserts = st.1.intAsserts ∧
    (hpCollectAux cfg n st).1.timer_enabled = st.1.timer_enabled ∧
    (hpCollectAux cfg n st).1.timer_current_value = st.1.timer_current_value ∧
    (hpCollectAux cfg n st).1.timer_reload_value = st.1.timer_reload_value ∧
    (hpCollectAux cfg n st).1.digic_timer20 = st.1.digic_timer20 ∧
    (hpCollectAux cfg n st).1.digic_timer32 = st.1.digic_timer32 ∧
    (hpCollectAux cfg n st).1.UTimers = st.1.UTimers := by
  induction n with
  | zero => exact ⟨rfl, rfl, rfl, rfl, rfl, rfl, rfl, rfl, rfl, rfl, rfl⟩
  | succ k ih =>
    obtain ⟨i1, i2, i3, i4, i5, i6, i7, i8, i9, i10, i11⟩ := ih
    obtain ⟨h1, h2, h3, h4, h5, h6, h7, h8, h9, h10, h11⟩ :=
      hpSlot_fields cfg k (hpCollectAux cfg k st)
    rw [hpCollectAux]
    exact ⟨h1.trans i1, h2.trans i2, h3.trans i3, h4.trans i4, h5.trans i5, h6.trans i6,
           h7.trans i7, h8.trans i8, h9.trans i9, h10.trans i10, h11.trans i11⟩

theorem hpCollectAux_inactive {cfg : Cfg} {n : Nat} {st : EOSState × (Nat → Bool)}
    (h : ∀ u, u < n → (st.1.HPTimers u).active = false) : hpCollectAux cfg n st = st := by
  induction n with
  | zero => rfl
  | succ k ih =>
    rw [hpCollectAux, ih (fun u hu => h u (by omega))]
    unfold hpSlot
    rw [if_neg]
    simp [h k (by omega)]

theorem hpTrigAux_busy {trig : Nat → Bool} {n : Nat} {s : EOSState} (h : s.irq_id ≠ 0) :
    (hpTrigAux trig n s).irq_id = s.irq_id ∧
    (hpTrigAux trig n s).irq_enabled = s.irq_enabled ∧
    (hpTrigAux trig n s).intLine = s.intLine ∧
    (hpTrigAux trig n s).intAsserts = s.intAsserts ∧
    (∀ q, s.irq_schedule q = 1 → (hpTrigAux trig n s).irq_schedule q = 1) ∧
    (hpTrigAux trig n s).timer_enabled = s.timer_enabled ∧
    (hpTrigAux trig n s).timer_current_value = s.timer_current_value ∧
    (hpTrigAux trig n s).timer_reload_value = s.timer_reload_value ∧
    (hpTrigAux trig n s).digic_timer20 = s.digic_timer20 ∧
    (hpTrigAux trig n s).digic_timer32 = s.digic_timer32 ∧
    (hpTrigAux trig n s).UTimers = s.UTimers ∧
    (hpTrigAux trig n s).HPTimers = s.HPTimers := by
  induction n with
  | zero => exact ⟨rfl, rfl, rfl, rfl, fun q hq => hq, rfl, rfl, rfl, rfl, rfl, rfl, rfl⟩
  | succ k ih =>
    obtain ⟨i1, i2, i3, i4, i5, i6, i7, i8, i9, i10, i11, i12⟩ := ih
    rw [hpTrigAux]
    split
    · obtain ⟨p1, p2, p3, p4, p5⟩ :=
        @trigger0_busy_preserve (k + 1) (hpTrigAux trig k s) (by rw [i1]; exact h)
      exact ⟨p1.trans i1, p2.trans i2, p3.trans i3, p4.trans i4,
             fun q hq => p5 q (i5 q hq),
             (trigger_timer_enabled _ _ _).trans i6,
             (trigger_timer_current _ _ _).trans i7,
             (trigger_timer_reload _ _ _).trans i8,
             (trigger_digic20 _ _ _).trans i9,
             (trigger_digic32 _ _ _).trans i10,
             (trigger_UTimers _ _ _).trans i11,
             (trigger_HPTimers _ _ _).trans i12⟩
    · exact ⟨i1, i2, i3, i4, i5, i6, i7, i8, i9, i10, i11, i12⟩

theorem hpTrigAux_false (n : Nat) (s : EOSState) :
    hpTrigAux (fun _ => false) n s = s := by
  induction n with
  | zero => rfl
  | succ k ih => rw [hpTrigAux]; simpa using ih

theorem hpPhase_inactive {cfg : Cfg} {s : EOSState}
    (h : ∀ u, u < 14 → (s.HPTimers u).active = false) : hpPhase cfg s = s := by
  unfold hpPhase
  rw [@hpCollectAux_inactive cfg 14 (s, fun _ => false) h]
  exact hpTrigAux_false 63 s

/-! ## Unconditional preservation of the countdown-timer state by the
interrupt machinery -/

theorem scanAux_timer_fields (cfg : Cfg) (n : Nat) (s : EOSState) :
    (scanAux cfg n s).timer_enabled = s.timer_enabled ∧
    (scanAux cfg n s).timer_current_value = s.timer_current_value ∧
    (scanAux cfg n s).timer_reload_value = s.timer_reload_value ∧
    (scanAux cfg n s).digic_timer20 = s.digic_timer20 ∧
    (scanAux cfg n s).digic_timer32 = s.digic_timer32 ∧
    (scanAux cfg n s).UTimers = s.UTimers ∧
    (scanAux cfg n s).HPTimers = s.HPTimers := by
  induction n generalizing s with
  | zero => exact ⟨rfl, rfl, rfl, rfl, rfl, rfl, rfl⟩
  | succ p ih =>
    obtain ⟨i1, i2, i3, i4, i5, i6, i7⟩ := ih (servIrq cfg (p + 1) s)
    obtain ⟨v1, v2, v3, v4, v5, v6, v7⟩ := servIrq_timer_fields cfg (p + 1) s
    rw [scanAux]
    exact ⟨i1.trans v1, i2.trans v2, i3.trans v3, i4.trans v4, i5.trans v5, i6.trans v6, i7.trans v7⟩

theorem utSlot_timer_fields (id : Nat) (s : EOSState) :
    (utSlot id s).timer_enabled = s.timer_enabled ∧
    (utSlot id s).timer_current_value = s.timer_current_value ∧
    (utSlot id s).timer_reload_value = s.timer_reload_value := by
  unfold utSlot
  split
  · exact ⟨by simp, by simp, by simp⟩
  · exact ⟨rfl, rfl, rfl⟩

theorem utAux_timer_fields (n : Nat) (s : EOSState) :
    (utAux n s).timer_enabled = s.timer_enabled ∧
    (utAux n s).timer_current_value = s.timer_current_value ∧
    (utAux n s).timer_reload_value = s.timer_reload_value := by
  induction n with
  | zero => exact ⟨rfl, rfl, rfl⟩
  | succ k ih =>
    obtain ⟨i1, i2, i3⟩ := ih
    obtain ⟨u1, u2, u3⟩ := utSlot_timer_fields k (utAux k s)
    rw [utAux]
    exact ⟨u1.trans i1, u2.trans i2, u3.trans i3⟩

theorem hpTrigAux_timer_fields (trig : Nat → Bool) (n : Nat) (s : EOSState) :
    (hpTrigAux trig n s).timer_enabled = s.timer_enabled ∧
    (hpTrigAux trig n s).timer_current_value = s.timer_current_value ∧
    (hpTrigAux trig n s).timer_reload_value = s.timer_reload_value := by
  induction n with
  | zero => exact ⟨rfl, rfl, rfl⟩
  | succ k ih =>
    obtain ⟨i1, i2, i3⟩ := ih
    rw [hpTrigAux]
    split
    · exact ⟨(trigger_timer_enabled _ _ _).trans i1,
             (trigger_timer_current _ _ _).trans i2,
             (trigger_timer_reload _ _ _).trans i3⟩
    · exact ⟨i1, i2, i3⟩

theorem hpPhase_timer_fields (cfg : Cfg) (s : EOSState) :
    (hpPhase cfg s).timer_enabled = s.timer_enabled ∧
    (hpPhase cfg s).timer_current_value = s.timer_current_value ∧
    (hpPhase cfg s).timer_reload_value = s.timer_reload_value := by
  unfold hpPhase
  obtain ⟨c1, c2, c3, c4, c5, c6, c7, c8, c9, c10, c11⟩ :=
    hpCollectAux_fields cfg 14 (s, fun _ => false)
  obtain ⟨t1, t2, t3⟩ :=
    hpTrigAux_timer_fields (hpCollectAux cfg 14 (s, fun _ => false)).2 63
      (hpCollectAux cfg 14 (s, fun _ => false)).1
  exact ⟨t1.trans c6, t2.trans c7, t3.trans c8⟩

/-- The countdown-timer effect of a whole tick, for every state: an
enabled slot inside the loop bound steps by `ctick`; every other slot
(and a disabled timer in particular) is untouched. -/
theorem eosTick_timer_current (cfg : Cfg) (s : EOSState) (t : Nat) :
    (eosTick cfg s).timer_current_value t =
      if t < cfg.numTimers ∧ s.timer_enabled t = true then ctick (s.timer_current_value t) (s.timer_reload_value t)
      else s.timer_current_value t := by
  unfold eosTick utPhase irqScanPhase countdownPhase
  rw [(hpPhase_timer_fields cfg _).2.1,
      (utAux_timer_fields 8 _).2.1,
      (scanAux_timer_fields cfg _ _).2.1,
      countdownAux_current]
  simp

/-- A tick never changes which countdown timers are enabled, nor their
reload values. -/
theorem eosTick_timer_meta (cfg : Cfg) (s : EOSState) :
    (eosTick cfg s).timer_enabled = s.timer_enabled ∧
    (eosTick cfg s).timer_reload_value = s.timer_reload_value := by
  unfold eosTick utPhase irqScanPhase countdownPhase
  constructor
  · rw [(hpPhase_timer_fields cfg _).1,
        (utAux_timer_fields 8 _).1,
        (scanAux_timer_fields cfg _ _).1,
        (countdownAux_non_current _ _).2.2.2.2.2.1]
    rfl
  · rw [(hpPhase_timer_fields cfg _).2.2,
        (utAux_timer_fields 8 _).2.2,
        (scanAux_timer_fields cfg _ _).2.2.1,
        (countdownAux_non_current _ _).2.2.2.2.2.2.1]
    rfl

/-! ## Whole-tick behaviour of the interrupt controller -/

theorem hpPhase_busy {cfg : Cfg} {s : EOSState} (h : s.irq_id ≠ 0) :
    (hpPhase cfg s).irq_id = s.irq_id ∧
    (hpPhase cfg s).irq_enabled = s.irq_enabled ∧
    (hpPhase cfg s).intLine = s.intLine ∧
    (hpPhase cfg s).intAsserts = s.intAsserts ∧
    (∀ q, s.irq_schedule q = 1 → (hpPhase cfg s).irq_schedule q = 1) := by
  unfold hpPhase
  obtain ⟨c1, c2, c3, c4, c5, c6, c7, c8, c9, c10, c11⟩ :=
    hpCollectAux_fields cfg 14 (s, fun _ => false)
  obtain ⟨t1, t2, t3, t4, t5, _, _, _, _, _, _, _⟩ :=
    @hpTrigAux_busy (hpCollectAux cfg 14 (s, fun _ => false)).2 63
      (hpCollectAux cfg 14 (s, fun _ => false)).1 (by rw [c3]; exact h)
  refine ⟨t1.trans c3, t2.trans c1, t3.trans c4, t4.trans c5, ?_⟩
  intro q hq
  exact t5 q (by rw [c2]; exact hq)

/-- While an interrupt is active, a whole tick cannot assert the CPU
line again, cannot change the active id, and keeps fire-next-tick
schedule slots pending. -/
theorem eosTick_busy {cfg : Cfg} {s : EOSState} (h : s.irq_id ≠ 0) :
    (eosTick cfg s).irq_id = s.irq_id ∧
    (eosTick cfg s).irq_enabled = s.irq_enabled ∧
    (eosTick cfg s).intLine = s.intLine ∧
    (eosTick cfg s).intAsserts = s.intAsserts ∧
    (∀ q, s.irq_schedule q = 1 → (eosTick cfg s).irq_schedule q = 1) := by
  unfold eosTick utPhase irqScanPhase countdownPhase
  obtain ⟨d1, d2, d3, d4, d5, _, _, _, _, _, _⟩ := countdownAux_non_current cfg.numTimers (clockPhase s)
  obtain ⟨s1, s2, s3, s4, _, s6⟩ := scanAux_inert cfg (cfg.intEntries - 1)
    (countdownAux cfg.numTimers (clockPhase s))
    (by intro p hp1 hp2 hcon; rw [d3] at hcon; exact h (by simpa using hcon.2.2))
  obtain ⟨u1, u2, u3, u4, u5, _, _, _, _, _, _⟩ :=
    @utAux_busy 8 (scanAux cfg (cfg.intEntries - 1) (countdownAux cfg.numTimers (clockPhase s)))
      (by rw [s1, d3]; simpa using h)
  obtain ⟨h1, h2, h3, h4, h5⟩ :=
    @hpPhase_busy cfg
      (utAux 8 (scanAux cfg (cfg.intEntries - 1) (countdownAux cfg.numTimers (clockPhase s))))
      (by rw [u1, s1, d3]; simpa using h)
  refine ⟨?_, ?_, ?_, ?_, ?_⟩
  · rw [h1, u1, s1, d3]; rfl
  · rw [h2, u2, s2, d1]; rfl
  · rw [h3, u3, s3, d4]; rfl
  · rw [h4, u4, s4, d5]; rfl
  · intro q hq
    have hq' : (countdownAux cfg.numTimers (clockPhase s)).irq_schedule q = 1 := by
      rw [d2]; exact hq
    exact h5 q (u5 q ((s6 q hq'.le).trans hq'))

/-- A tick in which nothing is both pending and enabled, with no
active interrupt and all output-compare timers off: the interrupt
controller state is completely preserved (schedules `> 1` count down,
but the fire-next-tick and idle slots stay put). -/
theorem eosTick_quiet {cfg : Cfg} {s : EOSState} (hid : s.irq_id = 0)
    (H : ∀ p, 1 ≤ p → p ≤ cfg.intEntries - 1 → ¬(s.irq_schedule p = 1 ∧ s.irq_enabled p = true))
    (hut : ∀ u, u < 8 → (s.UTimers u).active = false)
    (hhp : ∀ u, u < 14 → (s.HPTimers u).active = false) :
    (eosTick cfg s).irq_id = 0 ∧
    (eosTick cfg s).irq_enabled = s.irq_enabled ∧
    (eosTick cfg s).intLine = s.intLine ∧
    (eosTick cfg s).intAsserts = s.intAsserts ∧
    (∀ q, s.irq_schedule q ≤ 1 → (eosTick cfg s).irq_schedule q = s.irq_schedule q) ∧
    (eosTick cfg s).UTimers = s.UTimers ∧
    (eosTick cfg s).HPTimers = s.HPTimers := by
  unfold eosTick utPhase irqScanPhase countdownPhase
  obtain ⟨d1, d2, d3, d4, d5, d6, d7, d8, d9, d10, d11⟩ :=
    countdownAux_non_current cfg.numTimers (clockPhase s)
  obtain ⟨s1, s2, s3, s4, s5, s6⟩ := scanAux_inert cfg (cfg.intEntries - 1)
    (countdownAux cfg.numTimers (clockPhase s))
    (by
      intro p hp1 hp2 hcon
      rw [d2, d1, d3] at hcon
      exact H p hp1 hp2 ⟨hcon.1, hcon.2.1⟩)
  obtain ⟨t1, t2, t3, t4, t5, t6, t7⟩ :=
    scanAux_timer_fields cfg (cfg.intEntries - 1) (countdownAux cfg.numTimers (clockPhase s))
  have hscanUT : (scanAux cfg (cfg.intEntries - 1) (countdownAux cfg.numTimers (clockPhase s))).UTimers = s.UTimers := by
    rw [t6, d10]; rfl
  have hscanHP : (scanAux cfg (cfg.intEntries - 1) (countdownAux cfg.numTimers (clockPhase s))).HPTimers = s.HPTimers := by
    rw [t7, d11]; rfl
  have hut' : utAux 8 (scanAux cfg (cfg.intEntries - 1) (countdownAux cfg.numTimers (clockPhase s))) = scanAux cfg (cfg.intEntries - 1) (countdownAux cfg.numTimers (clockPhase s)) :=
    utAux_inactive (by intro u hu; rw [hscanUT]; exact hut u hu)
  have hhp' : hpPhase cfg (scanAux cfg (cfg.intEntries - 1) (countdownAux cfg.numTimers (clockPhase s))) = scanAux cfg (cfg.intEntries - 1) (countdownAux cfg.numTimers (clockPhase s)) :=
    hpPhase_inactive (by intro u hu; rw [hscanHP]; exact hhp u hu)
  rw [hut', hhp']
  refine ⟨?_, ?_, ?_, ?_, ?_, hscanUT, hscanHP⟩
  · rw [s1, d3]; exact hid
  · rw [s2, d1]; rfl
  · rw [s3, d4]; rfl
  · rw [s4, d5]; rfl
  · intro q hq
    have hq' : (countdownAux cfg.numTimers (clockPhase s)).irq_schedule q ≤ 1 := by
      rw [d2]; exact hq
    rw [s6 q hq', d2]; rfl

/-- A tick whose scan finds exactly one activatable id `j` (no higher
id can activate, output-compare timers all off): `j` is activated with
the re-arm value in its schedule slot, and the rest of the controller
state is untouched. -/
theorem eosTick_activate_quiet {cfg : Cfg} {s : EOSState} {j : Nat} (hid : s.irq_id = 0)
    (hj1 : 1 ≤ j) (hjn : j ≤ cfg.intEntries - 1)
    (hsj : s.irq_schedule j = 1) (hej : s.irq_enabled j = true)
    (Habove : ∀ p, j < p → p ≤ cfg.intEntries - 1 → ¬(s.irq_schedule p = 1 ∧ s.irq_enabled p = true))
    (hut : ∀ u, u < 8 → (s.UTimers u).active = false)
    (hhp : ∀ u, u < 14 → (s.HPTimers u).active = false)
    (k : Nat) (hk : k = if j = cfg.timerInterrupt then s.timer_reload_value cfg.dryosTimerId >>> 8 else 0) :
    (eosTick cfg s).irq_id = j ∧
    (eosTick cfg s).intLine = true ∧
    (eosTick cfg s).intAsserts = s.intAsserts + 1 ∧
    (eosTick cfg s).irq_enabled j = false ∧
    (∀ q, q ≠ j → (eosTick cfg s).irq_enabled q = s.irq_enabled q) ∧
    (eosTick cfg s).irq_schedule j = (if 1 < k then k - 1 else k) ∧
    (∀ q, q ≠ j → s.irq_schedule q ≤ 1 → (eosTick cfg s).irq_schedule q = s.irq_schedule q) ∧
    (eosTick cfg s).UTimers = s.UTimers ∧
    (eosTick cfg s).HPTimers = s.HPTimers := by
  unfold eosTick utPhase irqScanPhase countdownPhase
  obtain ⟨d1, d2, d3, d4, d5, d6, d7, d8, d9, d10, d11⟩ :=
    countdownAux_non_current cfg.numTimers (clockPhase s)
  obtain ⟨a1, a2, a3, a4, a5, a6, a7⟩ := scanAux_activate cfg (cfg.intEntries - 1) j
    (countdownAux cfg.numTimers (clockPhase s)) hj1 hjn
    (by rw [d2]; exact hsj) (by rw [d1]; exact hej) (by rw [d3]; exact hid)
    (by
      intro p hp1 hp2 hcon
      rw [d2, d1] at hcon
      exact Habove p hp1 hp2 hcon)
    k (by rw [d7]; exact hk)
  obtain ⟨t1, t2, t3, t4, t5, t6, t7⟩ :=
    scanAux_timer_fields cfg (cfg.intEntries - 1) (countdownAux cfg.numTimers (clockPhase s))
  have hscanUT : (scanAux cfg (cfg.intEntries - 1) (countdownAux cfg.numTimers (clockPhase s))).UTimers = s.UTimers := by
    rw [t6, d10]; rfl
  have hscanHP : (scanAux cfg (cfg.intEntries - 1) (countdownAux cfg.numTimers (clockPhase s))).HPTimers = s.HPTimers := by
    rw [t7, d11]; rfl
  have hut' : utAux 8 (scanAux cfg (cfg.intEntries - 1) (countdownAux cfg.numTimers (clockPhase s))) = scanAux cfg (cfg.intEntries - 1) (countdownAux cfg.numTimers (clockPhase s)) :=
    utAux_inactive (by intro u hu; rw [hscanUT]; exact hut u hu)
  have hhp' : hpPhase cfg (scanAux cfg (cfg.intEntries - 1) (countdownAux cfg.numTimers (clockPhase s))) = scanAux cfg (cfg.intEntries - 1) (countdownAux cfg.numTimers (clockPhase s)) :=
    hpPhase_inactive (by intro u hu; rw [hscanHP]; exact hhp u hu)
  rw [hut', hhp']
  refine ⟨a1, a2, ?_, a4, ?_, a6, ?_, hscanUT, hscanHP⟩
  · rw [a3, d5]; rfl
  · intro q hq
    rw [a5 q hq, d1]; rfl
  · intro q hq hq1
    have hq' : (countdownAux cfg.numTimers (clockPhase s)).irq_schedule q ≤ 1 := by
      rw [d2]; exact hq1
    rw [a7 q hq hq', d2]; rfl

/-- Like `eosTick_activate_quiet` but with the output-compare timers
unconstrained: their firing happens after the scan, cannot assert
again while `j` is active, and cannot unpend a fire-next-tick slot. -/
theorem eosTick_activate_general {cfg : Cfg} {s : EOSState} {j : Nat} (hid : s.irq_id = 0)
    (hj1 : 1 ≤ j) (hjn : j ≤ cfg.intEntries - 1)
    (hsj : s.irq_schedule j = 1) (hej : s.irq_enabled j = true)
    (Habove : ∀ p, j < p → p ≤ cfg.intEntries - 1 → ¬(s.irq_schedule p = 1 ∧ s.irq_enabled p = true)) :
    (eosTick cfg s).irq_id = j ∧
    (eosTick cfg s).intLine = true ∧
    (eosTick cfg s).intAsserts = s.intAsserts + 1 ∧
    (eosTick cfg s).irq_enabled j = false ∧
    (∀ q, q ≠ j → (eosTick cfg s).irq_enabled q = s.irq_enabled q) ∧
    (∀ q, q ≠ j → s.irq_schedule q = 1 → (eosTick cfg s).irq_schedule q = 1) := by
  unfold eosTick utPhase irqScanPhase countdownPhase
  obtain ⟨d1, d2, d3, d4, d5, d6, d7, d8, d9, d10, d11⟩ :=
    countdownAux_non_current cfg.numTimers (clockPhase s)
  obtain ⟨a1, a2, a3, a4, a5, a6, a7⟩ := scanAux_activate cfg (cfg.intEntries - 1) j
    (countdownAux cfg.numTimers (clockPhase s)) hj1 hjn
    (by rw [d2]; exact hsj) (by rw [d1]; exact hej) (by rw [d3]; exact hid)
    (by
      intro p hp1 hp2 hcon
      rw [d2, d1] at hcon
      exact Habove p hp1 hp2 hcon)
    (if j = cfg.timerInterrupt then (countdownAux cfg.numTimers (clockPhase s)).timer_reload_value cfg.dryosTimerId >>> 8 else 0) rfl
  obtain ⟨u1, u2, u3, u4, u5, _, _, _, _, _, _⟩ :=
    @utAux_busy 8 (scanAux cfg (cfg.intEntries - 1) (countdownAux cfg.numTimers (clockPhase s)))
      (by rw [a1]; omega)
  obtain ⟨h1, h2, h3, h4, h5⟩ :=
    @hpPhase_busy cfg
      (utAux 8 (scanAux cfg (cfg.intEntries - 1) (countdownAux cfg.numTimers (clockPhase s))))
      (by rw [u1, a1]; omega)
  refine ⟨?_, ?_, ?_, ?_, ?_, ?_⟩
  · rw [h1, u1, a1]
  · rw [h3, u3, a2]
  · rw [h4, u4, a3, d5]; rfl
  · rw [h2, u2, a4]
  · intro q hq
    rw [h2, u2, a5 q hq, d1]; rfl
  · intro q hq hq1
    have hq' : (countdownAux cfg.numTimers (clockPhase s)).irq_schedule q = 1 := by
      rw [d2]; exact hq1
    refine h5 q (u5 q ?_)
    rw [a7 q hq hq'.le]
    exact hq'

/-! ## Traces of operations while an interrupt is active -/

theorem stepOp_busy {cfg : Cfg} {s : EOSState} (op : Op) (h : s.irq_id ≠ 0) :
    (stepOp cfg s op).irq_id = s.irq_id ∧ (stepOp cfg s op).intAsserts = s.intAsserts := by
  cases op with
  | trig id delay =>
    simp only [stepOp]
    rw [trigger_busy h]
    exact ⟨rfl, rfl⟩
  | tick =>
    obtain ⟨e1, _, _, e4, _⟩ := @eosTick_busy cfg s h
    exact ⟨e1, e4⟩
  | enableInt id => exact ⟨rfl, rfl⟩

/-- While an interrupt is active (unacknowledged), no sequence of
trigger calls, ticks and enable writes can change the active id or
assert the CPU line again. -/
theorem runOps_busy {cfg : Cfg} (ops : List Op) {s : EOSState} (h : s.irq_id ≠ 0) :
    (runOps cfg ops s).irq_id = s.irq_id ∧ (runOps cfg ops s).intAsserts = s.intAsserts := by
  induction ops generalizing s with
  | nil => exact ⟨rfl, rfl⟩
  | cons op rest ih =>
    obtain ⟨e1, e2⟩ := @stepOp_busy cfg s op h
    obtain ⟨r1, r2⟩ := @ih (stepOp cfg s op) (by rw [e1]; exact h)
    exact ⟨r1.trans e1, r2.trans e2⟩

/-! ## Claim theorems -/

/-- C1: For every interrupt id ≠ 0, `trigger(id, 0)` with
`enabled[id]` set and no active interrupt activates immediately:
`active_id` becomes `id`, `enabled[id]` is cleared and the CPU line is
asserted (one `cpu_interrupt` call); and until the interrupt is
acknowledged — i.e. across any further sequence of triggers, ticks and
enable writes, none of which acknowledge — no further assertion
occurs and the active id stays `id`: exactly one assertion in total. -/
theorem trigger_immediate_activation_single_flight (cfg : Cfg) (s : EOSState) (id : Nat) (ops : List Op)
    (hid0 : id ≠ 0) (hen : s.irq_enabled id = true) (hact : s.irq_id = 0) :
    (eos_trigger_int id 0 s).irq_id = id ∧
    (eos_trigger_int id 0 s).irq_enabled id = false ∧
    (eos_trigger_int id 0 s).intLine = true ∧
    (eos_trigger_int id 0 s).intAsserts = s.intAsserts + 1 ∧
    (runOps cfg ops (eos_trigger_int id 0 s)).irq_id = id ∧
    (runOps cfg ops (eos_trigger_int id 0 s)).intAsserts = s.intAsserts + 1 := by
  have hT := @trigger_activate id 0 s rfl hen hact
  have hid : (eos_trigger_int id 0 s).irq_id = id := by rw [hT]
  have hna : (eos_trigger_int id 0 s).intAsserts = s.intAsserts + 1 := by rw [hT]
  obtain ⟨r1, r2⟩ := @runOps_busy cfg ops (eos_trigger_int id 0 s)
    (by rw [hid]; exact hid0)
  refine ⟨hid, ?_, by rw [hT], hna, by rw [r1, hid], by rw [r2, hna]⟩
  rw [hT]
  simp

/-- Closed witness for `trigger_immediate_activation_single_flight`:
id 5 enabled in the idle state, followed by a further trigger, an
enable write and a tick. -/
theorem trigger_immediate_activation_single_flight_witness :
    ((5 : Nat) ≠ 0) ∧
    ({ idleState with irq_enabled := upd idleState.irq_enabled 5 true } : EOSState).irq_enabled 5 = true ∧
    (runOps cfg0 [Op.trig 7 0, Op.enableInt 3, Op.tick]
      (eos_trigger_int 5 0 { idleState with irq_enabled := upd idleState.irq_enabled 5 true })).irq_id = 5 :=
  ⟨by decide, by decide,
   (trigger_immediate_activation_single_flight cfg0
     { idleState with irq_enabled := upd idleState.irq_enabled 5 true } 5
     [Op.trig 7 0, Op.enableInt 3, Op.tick]
     (by decide) (by decide) (by decide)).2.2.2.2.1⟩

/-- C2: A `trigger(id, delay)` call that does not activate
immediately stores `max(delay, 1)` in `scheduled[id]`, and when
`enabled[id]` is false the requested delay is overridden to 1 (first
conjunct).  Consequently, in the spec's Scenario C — `trigger(5, 3)`
with id 5 masked, id 5 enabled after the second tick and before the
third — the first two ticks deliver nothing (the masked request is
retried every tick) and activation occurs exactly at tick 3, with
exactly one assertion. -/
theorem trigger_delayed_schedule_and_masked_retry (cfg : Cfg) (s : EOSState)
    (hmask : s.irq_enabled 5 = false) (hid : s.irq_id = 0)
    (hsched : ∀ q, q ≠ 5 → s.irq_schedule q = 0)
    (hn : 5 ≤ cfg.intEntries - 1)
    (hut : ∀ u, u < 8 → (s.UTimers u).active = false)
    (hhp : ∀ u, u < 14 → (s.HPTimers u).active = false) :
    (∀ (id delay : Nat) (t : EOSState), ¬(delay = 0 ∧ t.irq_enabled id = true ∧ t.irq_id = 0) →
       (eos_trigger_int id delay t).irq_schedule id = (if t.irq_enabled id = true then max delay 1 else 1)) ∧
    (eos_trigger_int 5 3 s).irq_schedule 5 = 1 ∧
    (eosTick cfg (eos_trigger_int 5 3 s)).irq_id = 0 ∧
    (eosTick cfg (eos_trigger_int 5 3 s)).intAsserts = s.intAsserts ∧
    (eosTick cfg (eosTick cfg (eos_trigger_int 5 3 s))).irq_id = 0 ∧
    (eosTick cfg (eosTick cfg (eos_trigger_int 5 3 s))).intAsserts = s.intAsserts ∧
    (eosTick cfg (enableInt 5 (eosTick cfg (eosTick cfg (eos_trigger_int 5 3 s))))).irq_id = 5 ∧
    (eosTick cfg (enableInt 5 (eosTick cfg (eosTick cfg (eos_trigger_int 5 3 s))))).intAsserts = s.intAsserts + 1 ∧
    (eosTick cfg (enableInt 5 (eosTick cfg (eosTick cfg (eos_trigger_int 5 3 s))))).intLine = true := by
  have hgen : ∀ (id delay : Nat) (t : EOSState), ¬(delay = 0 ∧ t.irq_enabled id = true ∧ t.irq_id = 0) →
      (eos_trigger_int id delay t).irq_schedule id = (if t.irq_enabled id = true then max delay 1 else 1) := by
    intro id delay t ht
    rw [trigger_delayed ht]
    simp
  -- state after the masked trigger(5, 3)
  have hT : eos_trigger_int 5 3 s = { s with irq_schedule := upd s.irq_schedule 5 1 } := by
    rw [trigger_delayed (by simp [hmask])]
    rw [hmask]
    rfl
  have h1sched : ∀ q, (eos_trigger_int 5 3 s).irq_schedule q = upd s.irq_schedule 5 1 q := by
    intro q; rw [hT]
  have h1le : ∀ q, (eos_trigger_int 5 3 s).irq_schedule q ≤ 1 := by
    intro q
    rw [h1sched q]
    by_cases hq : q = 5
    · subst hq; simp
    · rw [upd_other _ _ _ _ hq, hsched q hq]
      omega
  -- tick 1: masked, nothing delivered
  obtain ⟨q1id, q1en, q1ln, q1as, q1sc, q1ut, q1hp⟩ :=
    @eosTick_quiet cfg (eos_trigger_int 5 3 s)
      (by rw [hT]; exact hid)
      (by
        intro p hp1 hp2 hcon
        by_cases hp5 : p = 5
        · subst hp5
          have : (eos_trigger_int 5 3 s).irq_enabled 5 = false := by rw [hT]; exact hmask
          rw [this] at hcon
          exact absurd hcon.2 (by simp)
        · have : (eos_trigger_int 5 3 s).irq_schedule p = 0 := by
            rw [h1sched p, upd_other _ _ _ _ hp5]; exact hsched p hp5
          rw [this] at hcon
          exact absurd hcon.1 (by simp))
      (by intro u hu; rw [hT]; exact hut u hu)
      (by intro u hu; rw [hT]; exact hhp u hu)
  have h2sched : ∀ q, (eosTick cfg (eos_trigger_int 5 3 s)).irq_schedule q = upd s.irq_schedule 5 1 q := by
    intro q
    rw [q1sc q (h1le q), h1sched q]
  have h2en : (eosTick cfg (eos_trigger_int 5 3 s)).irq_enabled = s.irq_enabled := by
    rw [q1en, hT]
  have h2as : (eosTick cfg (eos_trigger_int 5 3 s)).intAsserts = s.intAsserts := by
    rw [q1as, hT]
  have h2le : ∀ q, (eosTick cfg (eos_trigger_int 5 3 s)).irq_schedule q ≤ 1 := by
    intro q; rw [h2sched q]
    by_cases hq : q = 5
    · subst hq; simp
    · rw [upd_other _ _ _ _ hq, hsched q hq]
      omega
  -- tick 2: still masked
  obtain ⟨q2id, q2en, q2ln, q2as, q2sc, q2ut, q2hp⟩ :=
    @eosTick_quiet cfg (eosTick cfg (eos_trigger_int 5 3 s))
      q1id
      (by
        intro p hp1 hp2 hcon
        by_cases hp5 : p = 5
        · subst hp5
          rw [h2en, hmask] at hcon
          exact absurd hcon.2 (by simp)
        · rw [h2sched p, upd_other _ _ _ _ hp5, hsched p hp5] at hcon
          exact absurd hcon.1 (by simp))
      (by intro u hu; rw [q1ut, hT]; exact hut u hu)
      (by intro u hu; rw [q1hp, hT]; exact hhp u hu)
  have h3sched : ∀ q, (eosTick cfg (eosTick cfg (eos_trigger_int 5 3 s))).irq_schedule q = upd s.irq_schedule 5 1 q := by
    intro q
    rw [q2sc q (h2le q), h2sched q]
  have h3en : (eosTick cfg (eosTick cfg (eos_trigger_int 5 3 s))).irq_enabled = s.irq_enabled := by
    rw [q2en, h2en]
  have h3as : (eosTick cfg (eosTick cfg (eos_trigger_int 5 3 s))).intAsserts = s.intAsserts := by
    rw [q2as, h2as]
  -- enable id 5, then tick 3 activates it
  obtain ⟨a1, a2, a3, a4, a5, a6⟩ :=
    @eosTick_activate_general cfg
      (enableInt 5 (eosTick cfg (eosTick cfg (eos_trigger_int 5 3 s))))
      5
      (by show (eosTick cfg (eosTick cfg (eos_trigger_int 5 3 s))).irq_id = 0; exact q2id)
      (by omega) hn
      (by show (eosTick cfg (eosTick cfg (eos_trigger_int 5 3 s))).irq_schedule 5 = 1
          rw [h3sched 5]; simp)
      (by show upd (eosTick cfg (eosTick cfg (eos_trigger_int 5 3 s))).irq_enabled 5 true 5 = true
          simp)
      (by
        intro p hp1 hp2 hcon
        have hp5 : p ≠ 5 := by omega
        have : (enableInt 5 (eosTick cfg (eosTick cfg (eos_trigger_int 5 3 s)))).irq_schedule p = 0 := by
          show (eosTick cfg (eosTick cfg (eos_trigger_int 5 3 s))).irq_schedule p = 0
          rw [h3sched p, upd_other _ _ _ _ hp5]; exact hsched p hp5
        rw [this] at hcon
        exact absurd hcon.1 (by simp))
  refine ⟨hgen, by rw [h1sched 5]; simp, q1id, h2as, q2id, h3as, a1, ?_, a2⟩
  rw [a3]
  show (eosTick cfg (eosTick cfg (eos_trigger_int 5 3 s))).intAsserts + 1 = s.intAsserts + 1
  rw [h3as]

/-- Closed witness for `trigger_delayed_schedule_and_masked_retry`:
the idle state with id 5 disabled. -/
theorem trigger_delayed_schedule_and_masked_retry_witness :
    idleState.irq_enabled 5 = false ∧
    (eosTick cfg0 (enableInt 5 (eosTick cfg0 (eosTick cfg0 (eos_trigger_int 5 3 idleState))))).irq_id = 5 :=
  ⟨by decide,
   (trigger_delayed_schedule_and_masked_retry cfg0 idleState
     (by decide) (by decide) (fun q _ => rfl) (by decide)
     (fun u _ => rfl) (fun u _ => rfl)).2.2.2.2.2.2.1⟩

/-- C6: Within one tick the scan runs over ids in descending
order, so with two fire-next-tick enabled ids `i < j` (no interrupt
active, nothing above `j` able to activate), the tick activates `j` —
one assertion, `j` masked — and leaves the lower id `i` pending:
`scheduled[i]` is still 1 and `enabled[i]` still set afterwards. -/
theorem tick_descending_scan_priority (cfg : Cfg) (s : EOSState) (i j : Nat)
    (hi1 : 1 ≤ i) (hij : i < j) (hjn : j ≤ cfg.intEntries - 1)
    (hsi : s.irq_schedule i = 1) (hsj : s.irq_schedule j = 1)
    (hei : s.irq_enabled i = true) (hej : s.irq_enabled j = true)
    (hid : s.irq_id = 0)
    (Habove : ∀ p, j < p → p ≤ cfg.intEntries - 1 → ¬(s.irq_schedule p = 1 ∧ s.irq_enabled p = true)) :
    (eosTick cfg s).irq_id = j ∧
    (eosTick cfg s).intAsserts = s.intAsserts + 1 ∧
    (eosTick cfg s).intLine = true ∧
    (eosTick cfg s).irq_schedule i = 1 ∧
    (eosTick cfg s).irq_enabled i = true ∧
    (eosTick cfg s).irq_enabled j = false := by
  obtain ⟨a1, a2, a3, a4, a5, a6⟩ :=
    @eosTick_activate_general cfg s j hid (by omega) hjn hsj hej Habove
  exact ⟨a1, a3, a2, a6 i (by omega) hsi, (a5 i (by omega)).trans hei, a4⟩

/-- Closed witness for `tick_descending_scan_priority`: ids 3 and 7
both pending and enabled in the idle state. -/
theorem tick_descending_scan_priority_witness :
    (eosTick cfg0 { idleState with irq_enabled := upd (upd idleState.irq_enabled 3 true) 7 true, irq_schedule := upd (upd idleState.irq_schedule 3 1) 7 1 }).irq_id = 7 ∧
    (eosTick cfg0 { idleState with irq_enabled := upd (upd idleState.irq_enabled 3 true) 7 true, irq_schedule := upd (upd idleState.irq_schedule 3 1) 7 1 }).irq_schedule 3 = 1 :=
  have h := tick_descending_scan_priority cfg0
    { idleState with irq_enabled := upd (upd idleState.irq_enabled 3 true) 7 true,
                     irq_schedule := upd (upd idleState.irq_schedule 3 1) 7 1 }
    3 7 (by decide) (by decide) (by decide) (by decide) (by decide) (by decide) (by decide) (by decide)
    (by
      intro p hp1 hp2 hcon
      have h3 : p ≠ 3 := by omega
      have h7 : p ≠ 7 := by omega
      simp [upd, h3, h7, idleState] at hcon)
  ⟨h.1, h.2.2.2.1⟩

/-- C3 counterexample: Immediate activation through
`eos_trigger_int(TIMER_INTERRUPT, 0)` (id enabled, no interrupt
active) does not touch `irq_schedule` at all: with the DryOS timer
reload value 2560 (period `2560 >> 8 = 10`), the schedule slot of the
periodic-timer id is still 0 after the call — not the period the
claim requires. -/
theorem trigger_zero_no_rearm_counterexample :
    (eos_trigger_int 0x0A 0 { idleState with irq_enabled := upd idleState.irq_enabled 0x0A true, timer_reload_value := upd idleState.timer_reload_value 2 2560 }).irq_id = 0x0A ∧
    (eos_trigger_int 0x0A 0 { idleState with irq_enabled := upd idleState.irq_enabled 0x0A true, timer_reload_value := upd idleState.timer_reload_value 2 2560 }).intLine = true ∧
    (eos_trigger_int 0x0A 0 { idleState with irq_enabled := upd idleState.irq_enabled 0x0A true, timer_reload_value := upd idleState.timer_reload_value 2 2560 }).irq_schedule 0x0A = 0 ∧
    ({ idleState with irq_enabled := upd idleState.irq_enabled 0x0A true, timer_reload_value := upd idleState.timer_reload_value 2 2560 } : EOSState).timer_reload_value 2 >>> 8 = 10 ∧
    (0 : Nat) ≠ 10 := by
  refine ⟨by decide, by decide, by decide, by decide, by decide⟩

/-- C3 amended: The auto-repeat re-arm lives in the per-tick scan
(`eos_interrupt_timer_body`), not in `eos_trigger_int`: when the tick
scan activates the periodic-timer id, its schedule slot is re-armed to
`timer_reload_value[DRYOS_TIMER_ID] >> 8` instead of being cleared to
0 (the same iteration's `> 1` countdown then takes one off), so for
periods of at least 2 ticks the slot is non-zero afterwards; an
immediate activation through `eos_trigger_int(id, 0)` leaves the
schedule slot unchanged. -/
theorem tick_rearm_periodic_timer (cfg : Cfg) (s : EOSState)
    (hT1 : 1 ≤ cfg.timerInterrupt) (hTn : cfg.timerInterrupt ≤ cfg.intEntries - 1)
    (hid : s.irq_id = 0)
    (hs : s.irq_schedule cfg.timerInterrupt = 1) (he : s.irq_enabled cfg.timerInterrupt = true)
    (hother : ∀ q, q ≠ cfg.timerInterrupt → s.irq_schedule q = 0)
    (hut : ∀ u, u < 8 → (s.UTimers u).active = false)
    (hhp : ∀ u, u < 14 → (s.HPTimers u).active = false)
    (k : Nat) (hk : k = s.timer_reload_value cfg.dryosTimerId >>> 8) :
    (eosTick cfg s).irq_id = cfg.timerInterrupt ∧
    (eosTick cfg s).irq_schedule cfg.timerInterrupt = (if 1 < k then k - 1 else k) ∧
    (2 ≤ k → (eosTick cfg s).irq_schedule cfg.timerInterrupt ≠ 0) ∧
    (eos_trigger_int cfg.timerInterrupt 0 s).irq_schedule cfg.timerInterrupt = s.irq_schedule cfg.timerInterrupt := by
  obtain ⟨a1, a2, a3, a4, a5, a6, a7, a8, a9⟩ :=
    @eosTick_activate_quiet cfg s cfg.timerInterrupt
      hid hT1 hTn hs he
      (by
        intro p hp1 hp2 hcon
        rw [hother p (by omega)] at hcon
        exact absurd hcon.1 (by simp))
      hut hhp k (by rw [if_pos rfl]; exact hk)
  refine ⟨a1, a6, ?_, ?_⟩
  · intro h2
    rw [a6, if_pos (by omega)]
    omega
  · rw [trigger_activate rfl he hid]

/-- Closed witness for `tick_rearm_periodic_timer`: in `rearmState`,
the period is `2560 >> 8 = 10` and the end-of-tick schedule value is
9 ≠ 0. -/
theorem tick_rearm_periodic_timer_witness :
    cfg0.timerInterrupt = 0x0A ∧
    (eosTick cfg0 rearmState).irq_id = cfg0.timerInterrupt ∧
    (eosTick cfg0 rearmState).irq_schedule cfg0.timerInterrupt = (if 1 < 10 then 10 - 1 else 10) :=
  have h := tick_rearm_periodic_timer cfg0 rearmState
    (by decide) (by decide) (by decide) (by decide) (by decide)
    (by intro q hq; exact (upd_other _ _ _ _ hq).trans rfl)
    (fun u _ => rfl) (fun u _ => rfl)
    10 (by decide)
  ⟨rfl, h.1, h.2.1⟩

/-- C5: Per tick, an enabled countdown slot gains `STEP = 256`
(mod `2^32`) and resets to 0 only when the sum is strictly greater
than the reload value, while a disabled slot is untouched; with
`reload_value = 2560` the spec's scenario holds: the value after `n`
ticks is `256 * (n % 11)` — so 2560 at tick 10, 0 at tick 11, and the
same at ticks 21/22 and 32/33, i.e. across three wrap cycles. -/
theorem countdown_strict_wrap (cfg : Cfg) (s : EOSState) (t : Nat) :
    ((eosTick cfg s).timer_current_value t =
      if t < cfg.numTimers ∧ s.timer_enabled t = true then ctick (s.timer_current_value t) (s.timer_reload_value t)
      else s.timer_current_value t) ∧
    (s.timer_enabled t = false → (eosTick cfg s).timer_current_value t = s.timer_current_value t) ∧
    (∀ n, countdownIter n = 256 * (n % 11)) ∧
    countdownIter 10 = 2560 ∧ countdownIter 11 = 0 ∧
    countdownIter 21 = 2560 ∧ countdownIter 22 = 0 ∧
    countdownIter 32 = 2560 ∧ countdownIter 33 = 0 := by
  have hstep := eosTick_timer_current cfg s t
  have hmeta : ∀ n,
      ((eosTick cfg0)^[n] { idleState with timer_enabled := upd idleState.timer_enabled 0 true, timer_reload_value := upd idleState.timer_reload_value 0 2560 }).timer_enabled = ({ idleState with timer_enabled := upd idleState.timer_enabled 0 true, timer_reload_value := upd idleState.timer_reload_value 0 2560 } : EOSState).timer_enabled ∧
      ((eosTick cfg0)^[n] { idleState with timer_enabled := upd idleState.timer_enabled 0 true, timer_reload_value := upd idleState.timer_reload_value 0 2560 }).timer_reload_value = ({ idleState with timer_enabled := upd idleState.timer_enabled 0 true, timer_reload_value := upd idleState.timer_reload_value 0 2560 } : EOSState).timer_reload_value := by
    intro n
    induction n with
    | zero => exact ⟨rfl, rfl⟩
    | succ m ih =>
      rw [Function.iterate_succ_apply']
      obtain ⟨m1, m2⟩ := eosTick_timer_meta cfg0 _
      exact ⟨m1.trans ih.1, m2.trans ih.2⟩
  have hmain : ∀ n, countdownIter n = 256 * (n % 11) := by
    intro n
    induction n with
    | zero => rfl
    | succ m ih =>
      unfold countdownIter at ih ⊢
      rw [Function.iterate_succ_apply', eosTick_timer_current]
      rw [if_pos ⟨by decide, by rw [(hmeta m).1]; decide⟩]
      rw [(hmeta m).2]
      have hr : ({ idleState with timer_enabled := upd idleState.timer_enabled 0 true, timer_reload_value := upd idleState.timer_reload_value 0 2560 } : EOSState).timer_reload_value 0 = 2560 := by decide
      rw [hr, ih]
      simp only [ctick, DIGIC_TIMER_STEP]
      have hm : m % 11 ≤ 10 := by omega
      have hlt : (256 * (m % 11) + 256) % 2 ^ 32 = 256 * (m % 11) + 256 :=
        Nat.mod_eq_of_lt (by omega)
      rw [hlt]
      by_cases h10 : m % 11 = 10
      · rw [if_pos (by omega)]
        omega
      · rw [if_neg (by omega)]
        omega
  refine ⟨hstep, ?_, hmain, ?_, ?_, ?_, ?_, ?_, ?_⟩
  · intro hf
    rw [hstep, if_neg]
    intro hcon
    rw [hf] at hcon
    exact absurd hcon.2 (by simp)
  · rw [hmain 10]
  · rw [hmain 11]
  · rw [hmain 21]
  · rw [hmain 22]
  · rw [hmain 32]
  · rw [hmain 33]

/-- Closed witness for `countdown_strict_wrap`: the disabled-timer
conjunct applied to slot 0 of the idle state, plus the wrap values at
the third cycle. -/
theorem countdown_strict_wrap_witness :
    (eosTick cfg0 idleState).timer_current_value 0 = idleState.timer_current_value 0 ∧
    countdownIter 32 = 2560 ∧ countdownIter 33 = 0 :=
  have h := countdown_strict_wrap cfg0 idleState 0
  ⟨h.2.1 rfl, h.2.2.2.2.2.2.2.1, h.2.2.2.2.2.2.2.2⟩

/-- C4: Reading the interrupt reason register returns the active
id, shifted left by 2 exactly on the address variants with a non-zero
low nibble, then resets `active_id` to 0 and deasserts the CPU line;
a second read with no intervening activation returns 0 (idempotent
acknowledge), and across the two reads the line deasserts exactly
once: the first read is a deassert event, the second is not. -/
theorem intengine_reason_read_ack_idempotent (address : Nat) (s : EOSState)
    (haddr : address ∈ reason_addrs) (hline : s.intLine = true) :
    (eos_handle_intengine address false 0 s).1 = s.irq_id <<< (if address &&& 0xF ≠ 0 then 2 else 0) ∧
    (eos_handle_intengine address false 0 s).2.irq_id = 0 ∧
    (eos_handle_intengine address false 0 s).2.intLine = false ∧
    (eos_handle_intengine address false 0 (eos_handle_intengine address false 0 s).2).1 = 0 ∧
    (eos_handle_intengine address false 0 (eos_handle_intengine address false 0 s).2).2.irq_id = 0 ∧
    deassertEvent s (eos_handle_intengine address false 0 s).2 ∧
    ¬ deassertEvent (eos_handle_intengine address false 0 s).2
        (eos_handle_intengine address false 0 (eos_handle_intengine address false 0 s).2).2 := by
  have h1 : eos_handle_intengine address false 0 s =
      (s.irq_id <<< (if address &&& 0xF ≠ 0 then 2 else 0), { s with irq_id := 0, intLine := false }) := by
    unfold eos_handle_intengine
    rw [if_pos haddr]
    rfl
  have h2 : eos_handle_intengine address false 0 ({ s with irq_id := 0, intLine := false } : EOSState) =
      (0, { s with irq_id := 0, intLine := false }) := by
    unfold eos_handle_intengine
    rw [if_pos haddr]
    show ((0 : Nat) <<< (if address &&& 0xF ≠ 0 then 2 else 0), ({ s with irq_id := 0, intLine := false } : EOSState)) = _
    rw [Nat.zero_shiftLeft]
  rw [h1]
  rw [h2]
  refine ⟨rfl, rfl, rfl, rfl, rfl, ⟨hline, rfl⟩, ?_⟩
  intro hcon
  exact absurd hcon.1 (by simp)

/-- Closed witness for `intengine_reason_read_ack_idempotent`: the
DIGIC 4/5 reason register 0xC0201004 with interrupt 5 active. -/
theorem intengine_reason_read_ack_idempotent_witness :
    (eos_handle_intengine 0xC0201004 false 0 { idleState with irq_id := 5, intLine := true }).1 =
      ({ idleState with irq_id := 5, intLine := true } : EOSState).irq_id <<< (if 0xC0201004 &&& 0xF ≠ 0 then 2 else 0) ∧
    (eos_handle_intengine 0xC0201004 false 0 (eos_handle_intengine 0xC0201004 false 0 { idleState with irq_id := 5, intLine := true }).2).1 = 0 ∧
    deassertEvent { idleState with irq_id := 5, intLine := true }
      (eos_handle_intengine 0xC0201004 false 0 { idleState with irq_id := 5, intLine := true }).2 :=
  have h := intengine_reason_read_ack_idempotent 0xC0201004
    { idleState with irq_id := 5, intLine := true } (by decide) rfl
  ⟨h.1, h.2.2.2.1, h.2.2.2.2.2.1⟩

/-- C7 divergence: The snap-forward workaround of the HPTimer
arming path does set `output_compare = clock + STEP` when the rounded
target is behind the clock — but at the top of the 20-bit domain this
misses the mask: arming 0x80000 at `digic_timer20 = 0xFFF00` takes
the negative-delay branch (rounded = 0x80100 is behind) and stores
`0xFFF00 + 0x100 = 0x100000`, while the 20-bit clock advances to
`digic20_step 0xFFF00 = 0` and forever stays strictly below
`0x100000`, so the equality-based firing condition of
`eos_interrupt_timer_body` can never hold again: the timer does not
fire on the next tick (nor ever), contradicting the claim and the
code's own "trigger right away" comment. -/
theorem hp_snap_forward_never_fires :
    hp_set_compare 0xFFF00 ocIdle 0x80000 = { ocIdle with output_compare := 0x100000 } ∧
    (0x80000 + DIGIC_TIMER_STEP) &&& DIGIC_TIMER20_MASK = 0x80100 ∧
    (0x100000 : Nat) ≠ 0x80100 ∧
    digic20_step 0xFFF00 = 0 ∧
    (∀ d : Nat, digic20_step d < 0x100000) ∧
    (∀ d : Nat, digic20_step d ≠ (hp_set_compare 0xFFF00 ocIdle 0x80000).output_compare) := by
  have hlt : ∀ d : Nat, digic20_step d < 0x100000 := by
    intro d
    have hle : (d + DIGIC_TIMER_STEP) &&& DIGIC_TIMER20_MASK ≤ DIGIC_TIMER20_MASK :=
      Nat.and_le_right
    calc digic20_step d ≤ DIGIC_TIMER20_MASK := hle
      _ < 0x100000 := by norm_num [DIGIC_TIMER20_MASK]
  have hoc : hp_set_compare 0xFFF00 ocIdle 0x80000 = { ocIdle with output_compare := 0x100000 } := by decide
  refine ⟨hoc, by decide, by decide, by decide, hlt, ?_⟩
  intro d
  rw [hoc]
  exact Nat.ne_of_lt (hlt d)

/-! ## The synchronous DMA copy -/

theorem readBytes_length (mem : MemB) (addr n : Nat) : (readBytes mem addr n).length = n := by
  simp [readBytes]

theorem readBytes_getD (mem : MemB) (addr : Nat) {n i : Nat} (h : i < n) :
    (readBytes mem addr n).getD i 0 = mem (addr + i) := by
  rw [List.getD_eq_getElem _ _ (by rw [readBytes_length]; exact h)]
  simp [readBytes]

theorem writeBytes_in (mem : MemB) (addr : Nat) (buf : List Nat) {i : Nat} (h : i < buf.length) :
    writeBytes mem addr buf (addr + i) = buf.getD i 0 := by
  unfold writeBytes
  rw [if_pos ⟨by omega, by omega⟩]
  congr 1
  omega

theorem writeBytes_out (mem : MemB) (addr : Nat) (buf : List Nat) {x : Nat}
    (h : x < addr ∨ addr + buf.length ≤ x) : writeBytes mem addr buf x = mem x := by
  unfold writeBytes
  rw [if_neg]
  omega

theorem dma_copy_loop_zero (mem : MemB) (src dst : Nat) : dma_copy_loop mem src dst 0 = mem := by
  rw [dma_copy_loop]
  rfl

theorem dma_copy_loop_succ (mem : MemB) (src dst remain : Nat) (h : remain ≠ 0) :
    dma_copy_loop mem src dst remain =
      dma_copy_loop (writeBytes mem dst (readBytes mem src (if remain > 8192 then 8192 else remain)))
        (src + (if remain > 8192 then 8192 else remain))
        (dst + (if remain > 8192 then 8192 else remain))
        (remain - (if remain > 8192 then 8192 else remain)) := by
  conv_lhs => rw [dma_copy_loop]
  rw [dif_neg h]

/-- Correctness of the chunked copy loop: for disjoint regions, every
byte of `[dst, dst+remain)` holds the corresponding source byte of
call time, and no byte outside `[dst, dst+remain)` is changed. -/
theorem dma_copy_loop_spec (remain : Nat) :
    ∀ (src dst : Nat) (mem : MemB), (dst + remain ≤ src ∨ src + remain ≤ dst) →
    (∀ i, i < remain → dma_copy_loop mem src dst remain (dst + i) = mem (src + i)) ∧
    (∀ x, x < dst ∨ dst + remain ≤ x → dma_copy_loop mem src dst remain x = mem x) := by
  induction remain using Nat.strong_induction_on with
  | _ remain ih =>
    intro src dst mem hdisj
    by_cases h0 : remain = 0
    · subst h0
      rw [dma_copy_loop_zero]
      exact ⟨fun i hi => absurd hi (by omega), fun x _ => rfl⟩
    · have key := dma_copy_loop_succ mem src dst remain h0
      set t := if remain > 8192 then 8192 else remain with htdef
      have ht1 : 1 ≤ t := by rw [htdef]; split <;> omega
      have ht2 : t ≤ remain := by rw [htdef]; split <;> omega
      have hdisj' : (dst + t) + (remain - t) ≤ (src + t) ∨ (src + t) + (remain - t) ≤ (dst + t) := by
        rcases hdisj with h | h
        · left; omega
        · right; omega
      obtain ⟨IA, IB⟩ := ih (remain - t) (by omega) (src + t) (dst + t)
        (writeBytes mem dst (readBytes mem src t)) hdisj'
      rw [key]
      constructor
      · intro i hi
        by_cases hit : i < t
        · rw [IB (dst + i) (Or.inl (by omega))]
          rw [writeBytes_in mem dst _ (by rw [readBytes_length]; exact hit)]
          exact readBytes_getD mem src hit
        · have e0 : dst + i = (dst + t) + (i - t) := by omega
          rw [e0, IA (i - t) (by omega)]
          have e1 : (src + t) + (i - t) = src + i := by omega
          rw [e1]
          apply writeBytes_out
          rw [readBytes_length]
          rcases hdisj with h | h
          · right; omega
          · left; omega
      · intro x hx
        rw [IB x (by omega)]
        apply writeBytes_out
        rw [readBytes_length]
        rcases hx with h | h
        · exact Or.inl h
        · exact Or.inr (by omega)

/-- C8: A "start" write to the synchronous DMA engine copies all
`count` bytes from `src` to `dst` in 8192-byte chunks before it
returns: for disjoint regions, afterwards `dst[0..count)` equals
`src[0..count)` as of call time and no other byte changed.  The
completion interrupt is not raised with the copy: it is requested via
`eos_trigger_int(interruptId[parm], count / 10000)`, so for
`count ≥ 10000` no assertion happens during the start write and the
completion id is scheduled `count / 10000` ticks out (clamped to 1 if
the id is masked). -/
theorem dma_start_sync_copy (parm srcAddr dstAddr count : Nat) (mem : MemB) (s : EOSState)
    (hdisj : dstAddr + count ≤ srcAddr ∨ srcAddr + count ≤ dstAddr) :
    (∀ i, i < count → (dma_start parm srcAddr dstAddr count mem s).1 (dstAddr + i) = mem (srcAddr + i)) ∧
    (∀ x, x < dstAddr ∨ dstAddr + count ≤ x → (dma_start parm srcAddr dstAddr count mem s).1 x = mem x) ∧
    (dma_start parm srcAddr dstAddr count mem s).2 = eos_trigger_int (dma_interruptId.getD parm 0) (count / 10000) s ∧
    (10000 ≤ count →
      (dma_start parm srcAddr dstAddr count mem s).2.intAsserts = s.intAsserts ∧
      (dma_start parm srcAddr dstAddr count mem s).2.irq_schedule (dma_interruptId.getD parm 0) =
        (if s.irq_enabled (dma_interruptId.getD parm 0) = true then count / 10000 else 1)) := by
  obtain ⟨A, B⟩ := dma_copy_loop_spec count srcAddr dstAddr mem hdisj
  refine ⟨A, B, rfl, ?_⟩
  intro hcount
  have hd0 : count / 10000 ≠ 0 := by
    intro hc
    have := Nat.div_le_div_right (c := 10000) hcount
    rw [hc] at this
    simp at this
  have hT := @trigger_delayed (dma_interruptId.getD parm 0) (count / 10000) s
    (by intro hcon; exact hd0 hcon.1)
  constructor
  · show (eos_trigger_int (dma_interruptId.getD parm 0) (count / 10000) s).intAsserts = s.intAsserts
    rw [hT]
  · show (eos_trigger_int (dma_interruptId.getD parm 0) (count / 10000) s).irq_schedule (dma_interruptId.getD parm 0) = _
    rw [hT]
    simp only [upd_same]
    by_cases he : s.irq_enabled (dma_interruptId.getD parm 0) = true
    · rw [if_pos he, if_pos he]
      omega
    · rw [if_neg he, if_neg he]

/-- Closed witness for `dma_start_sync_copy`: channel 1, a 3-byte copy
from 0x1000 to 0x2000 over the constant-0x5A memory. -/
theorem dma_start_sync_copy_witness :
    (dma_start 1 0x1000 0x2000 3 (fun _ => 0x5A) idleState).1 (0x2000 + 0) = (fun _ => (0x5A : Nat)) (0x1000 + 0) ∧
    (dma_start 1 0x1000 0x2000 3 (fun _ => 0x5A) idleState).2 = eos_trigger_int (dma_interruptId.getD 1 0) (3 / 10000) idleState :=
  have h := dma_start_sync_copy 1 0x1000 0x2000 3 (fun _ => 0x5A) idleState (by omega)
  ⟨h.1 0 (by omega), h.2.2.1⟩

/-- C9 counterexample: On an address that matches no handler
entry, `eos_handler` only logs and returns 0: a write through the
no-match path is dropped, whereas the claimed default behaviour
(`default_handle_claimed`, the spec's words) would store it — so the
claim's "the write is stored / the read fetches the backing memory"
fails on the code (the catch-all that does perform raw accesses,
`eos_default_handle`, is reached only through explicitly registered
handlers such as `eos_handle_ram`). -/
theorem unknown_address_write_not_stored_counterexample :
    eos_find_handler [] 0xC0F00000 = none ∧
    (eos_handler [] 0xC0F00000 true 0xDEADBEEF (fun _ => 0)).2 0xC0F00000 = 0 ∧
    (eos_handler [] 0xC0F00000 true 0xDEADBEEF (fun _ => 0)).1 = 0 ∧
    (default_handle_claimed 0xC0F00000 true 0xDEADBEEF (fun _ => 0)).2 0xC0F00000 = 0xDEADBEEF ∧
    (0 : Nat) ≠ 0xDEADBEEF :=
  ⟨rfl, rfl, rfl, by decide, by decide⟩

/-- C9 amended: An MMIO access whose address matches no entry of
the handler table is never fatal: `eos_handler` totals out through the
default path, which logs the unknown-address event and returns 0 (for
writes as well as reads) while leaving the memory untouched — it does
not perform the raw memory access. -/
theorem unknown_address_access_never_fatal (handlers : List EOSRegionHandler) (address : Nat)
    (isWrite : Bool) (value : Nat) (mem : Mem32)
    (h : eos_find_handler handlers address = none) :
    eos_handler handlers address isWrite value mem = (0, mem) := by
  unfold eos_handler
  rw [h]

/-- Closed witness for `unknown_address_access_never_fatal`: a write
to 0xCF001234 with an empty handler table. -/
theorem unknown_address_access_never_fatal_witness :
    eos_handler [] 0xCF001234 true 0x1234 (fun _ => 7) = (0, fun _ => 7) :=
  unknown_address_access_never_fatal [] 0xCF001234 true 0x1234 (fun _ => 7) rfl

/-- C10: Through `eos_default_handle`, a read of an address whose
top nibble is not 0x0, 0x4 or 0xF flips the static parity counter and,
on the odd phase, returns the bitwise complement (xor `0xFFFFFFFF`,
the `uint32_t` `~`) of the stored word: two consecutive reads of the
same unchanged address return the stored value and its complement (in
an order determined by the hidden counter), hence differ — the same
read is not deterministic across two runs.  Reads leave the memory
unchanged. -/
theorem default_read_alternating_complement (mod : Nat) (mem : Mem32) (address : Nat)
    (h0 : address &&& 0xF0000000 ≠ 0)
    (hF : address &&& 0xF0000000 ≠ 0xF0000000)
    (h4 : address &&& 0xF0000000 ≠ 0x40000000) :
    (eos_default_handle mod mem address false 0).2.1 = (mod + 1) % 2 ∧
    (eos_default_handle mod mem address false 0).2.2 = mem ∧
    ((eos_default_handle mod mem address false 0).1 = mem address ∧
       (eos_default_handle (eos_default_handle mod mem address false 0).2.1
         (eos_default_handle mod mem address false 0).2.2 address false 0).1 = 0xFFFFFFFF ^^^ mem address ∨
     (eos_default_handle mod mem address false 0).1 = 0xFFFFFFFF ^^^ mem address ∧
       (eos_default_handle (eos_default_handle mod mem address false 0).2.1
         (eos_default_handle mod mem address false 0).2.2 address false 0).1 = mem address) ∧
    (eos_default_handle mod mem address false 0).1 ≠
      (eos_default_handle (eos_default_handle mod mem address false 0).2.1
        (eos_default_handle mod mem address false 0).2.2 address false 0).1 := by
  have hregion : ¬(address &&& 0xF0000000 = 0 ∨ address &&& 0xF0000000 = 0xF0000000 ∨ address &&& 0xF0000000 = 0x40000000) := by
    intro hcon
    rcases hcon with h | h | h
    · exact h0 h
    · exact hF h
    · exact h4 h
  have hread : ∀ m : Nat, eos_default_handle m mem address false 0 =
      (if (m + 1) % 2 ≠ 0 then 0xFFFFFFFF ^^^ mem address else mem address, (m + 1) % 2, mem) := by
    intro m
    unfold eos_default_handle
    rw [if_neg (by simp), if_neg hregion]
  have hcompl : 0xFFFFFFFF ^^^ mem address ≠ mem address := by
    intro hcon
    have h1 : (0xFFFFFFFF ^^^ mem address) ^^^ mem address = mem address ^^^ mem address := by
      rw [hcon]
    rw [Nat.xor_cancel_right, Nat.xor_self] at h1
    exact absurd h1 (by decide)
  rw [hread mod]
  refine ⟨rfl, rfl, ?_, ?_⟩
  · rw [hread ((mod + 1) % 2)]
    by_cases hm : (mod + 1) % 2 = 0
    · left
      constructor
      · show (if (mod + 1) % 2 ≠ 0 then 0xFFFFFFFF ^^^ mem address else mem address) = mem address
        rw [if_neg (by omega)]
      · show (if ((mod + 1) % 2 + 1) % 2 ≠ 0 then 0xFFFFFFFF ^^^ mem address else mem address) = 0xFFFFFFFF ^^^ mem address
        rw [if_pos (by omega)]
    · right
      constructor
      · show (if (mod + 1) % 2 ≠ 0 then 0xFFFFFFFF ^^^ mem address else mem address) = 0xFFFFFFFF ^^^ mem address
        rw [if_pos (by omega)]
      · show (if ((mod + 1) % 2 + 1) % 2 ≠ 0 then 0xFFFFFFFF ^^^ mem address else mem address) = mem address
        rw [if_neg (by omega)]
  · rw [hread ((mod + 1) % 2)]
    by_cases hm : (mod + 1) % 2 = 0
    · show (if (mod + 1) % 2 ≠ 0 then 0xFFFFFFFF ^^^ mem address else mem address) ≠
        (if ((mod + 1) % 2 + 1) % 2 ≠ 0 then 0xFFFFFFFF ^^^ mem address else mem address)
      rw [if_neg (by omega), if_pos (by omega)]
      exact fun hcon => hcompl hcon.symm
    · show (if (mod + 1) % 2 ≠ 0 then 0xFFFFFFFF ^^^ mem address else mem address) ≠
        (if ((mod + 1) % 2 + 1) % 2 ≠ 0 then 0xFFFFFFFF ^^^ mem address else mem address)
      rw [if_pos (by omega), if_neg (by omega)]
      exact hcompl

/-- Closed witness for `default_read_alternating_complement`: address
0xC0220000 (top nibble 0xC), stored word 0xAB, fresh counter. -/
theorem default_read_alternating_complement_witness :
    (eos_default_handle 0 (fun _ => 0xAB) 0xC0220000 false 0).2.1 = (0 + 1) % 2 ∧
    (eos_default_handle 0 (fun _ => 0xAB) 0xC0220000 false 0).1 ≠
      (eos_default_handle (eos_default_handle 0 (fun _ => 0xAB) 0xC0220000 false 0).2.1
        (eos_default_handle 0 (fun _ => 0xAB) 0xC0220000 false 0).2.2 0xC0220000 false 0).1 :=
  have h := default_read_alternating_complement 0 (fun _ => 0xAB) 0xC0220000
    (by decide) (by decide) (by decide)
  ⟨h.1, h.2.2.2⟩

end EosModel
